import Mathlib

/-!
# Expression templates over `Vec<T, Rep>` (src/main.cpp)

A shallow embedding of the lazy elementwise-arithmetic engine of `src/main.cpp`.

* The owning buffers (`std::vector<T>`) live in a `Store`, addressed by a buffer number;
  a `const std::vector<T>&` held by an expression node is the buffer number.
* The representation types (`std::vector<T>`, `Scalar<T>`, `AddV<T,OP1,OP2>`,
  `MultV<T,OP1,OP2>`), which the C++ nests at the type level, are the constructors of `Rep`.
* `assert` comes from `<cassert>`; whether it checks anything depends on `NDEBUG`, so every
  function that contains an `assert` takes the build flag `ndebug`.  The source defines
  `NDEBUG` on line 2, before including `<cassert>`: the build of the source is `ndebug = true`.
* `std::vector<T>::operator[]` outside the vector's range has undefined behaviour; it is the
  failure `Failure.undefinedBehaviour`.
-/

namespace ExprTemplate

/-- Line 2 of the source, `#define NDEBUG`, placed before `#include <cassert>`. -/
def NDEBUG : Bool := true

/-- The ways an operation can go wrong.  `outOfRange` is a failed `assert(i < size())`,
`shapeMismatch` a failed size assertion (`assert(size() == b.size())` and the
assertion of `AddV::size` / `MultV::size`), `undefinedBehaviour` an access of a
`std::vector` outside its range (or through a reference to no element). -/
inductive Failure where
  | outOfRange
  | shapeMismatch
  | undefinedBehaviour
  deriving DecidableEq, Repr

/-- The owning buffers alive during a statement: buffer number to contents. -/
abbrev Store (T : Type) := Nat → List T

/-- The macro `assert(cond)` of `<cassert>`: with `NDEBUG` defined it expands to nothing
(the condition is not evaluated), otherwise it aborts when the condition is false. -/
def assert (ndebug : Bool) (f : Failure) (cond : Except Failure Bool) : Except Failure Unit :=
  if ndebug then .ok ()
  else
    match cond with
    | .error e => .error e
    | .ok c => if c then .ok () else .error f

/-- What a `const T&` refers to: an object of type `T` outside every buffer (nothing in an
assignment statement changes it, so it is given by its value), or element `i` of a buffer. -/
inductive Ref (T : Type) where
  | obj (value : T)
  | elem (buf : Nat) (i : Nat)

/-- Reading through a `const T&`. -/
def Ref.read {T : Type} (σ : Store T) : Ref T → Except Failure T
  | .obj value => .ok value
  | .elem buf i =>
    match (σ buf)[i]? with
    | some x => .ok x
    | none => .error .undefinedBehaviour

/-- The class `Scalar<T>`: it holds `const T& s`. -/
structure Scalar (T : Type) where
  s : Ref T

/-- Source `Scalar::operator[](std::size_t) const { return s; }`. -/
def Scalar.index {T : Type} (σ : Store T) (sc : Scalar T) (_i : Nat) : Except Failure T :=
  sc.s.read σ

/-- Source `Scalar::size() const { return 0; }`. -/
def Scalar.size {T : Type} (_sc : Scalar T) : Nat := 0

/-- The representation behind a facade: the storage of an owning `Vec<T>` (a
`std::vector<T>`, held by reference inside a node), a `Scalar<T>`, or a node
`AddV<T,OP1,OP2>` / `MultV<T,OP1,OP2>` over two representations. -/
inductive Rep (T : Type) where
  | vector (buf : Nat)
  | scalar (sc : Scalar T)
  | addV (op1 op2 : Rep T)
  | multV (op1 op2 : Rep T)

/-- The body shared by `AddV::size` and `MultV::size`, given the results of `op1.size()`
and `op2.size()`:
`assert(op1.size() == 0 || op2.size() == 0 || op1.size() == op2.size());`
`return op1.size() != 0 ? op1.size() : op2.size();` -/
def nodeSize (ndebug : Bool) (s1 s2 : Except Failure Nat) : Except Failure Nat := do
  assert ndebug .shapeMismatch (do
    let a ← s1
    if a == 0 then pure true
    else
      let b ← s2
      if b == 0 then pure true
      else
        let a' ← s1
        let b' ← s2
        pure (a' == b'))
  let n1 ← s1
  if n1 != 0 then s1 else s2

/-- The `size()` of a representation: `std::vector::size`, `Scalar::size`, `AddV::size`,
`MultV::size`. -/
def Rep.size {T : Type} (ndebug : Bool) (σ : Store T) : Rep T → Except Failure Nat
  | .vector buf => .ok (σ buf).length
  | .scalar sc => .ok sc.size
  | .addV op1 op2 => nodeSize ndebug (op1.size ndebug σ) (op2.size ndebug σ)
  | .multV op1 op2 => nodeSize ndebug (op1.size ndebug σ) (op2.size ndebug σ)

/-- The `operator[]` of a representation: `std::vector::operator[]` (no range check),
`Scalar::operator[]`, `AddV::operator[]` (`op1[i] + op2[i]`) and `MultV::operator[]`
(`op1[i] * op2[i]`). -/
def Rep.index {T : Type} [Add T] [Mul T] (σ : Store T) : Rep T → Nat → Except Failure T
  | .vector buf, i =>
    match (σ buf)[i]? with
    | some x => .ok x
    | none => .error .undefinedBehaviour
  | .scalar sc, i => sc.index σ i
  | .addV op1 op2, i => do
    let x ← op1.index σ i
    let y ← op2.index σ i
    pure (x + y)
  | .multV op1 op2, i => do
    let x ← op1.index σ i
    let y ← op2.index σ i
    pure (x * y)

/-- The class template `Vec<T, Rep>`: a facade holding `Rep expr_rep`.  An owning `Vec<T>`
(default `Rep = std::vector<T>`) is `⟨.vector buf⟩`. -/
structure Vec (T : Type) where
  expr_rep : Rep T

/-- Source `Vec::size() const { return expr_rep.size(); }`. -/
def Vec.size {T : Type} (ndebug : Bool) (σ : Store T) (v : Vec T) : Except Failure Nat :=
  v.expr_rep.size ndebug σ

/-- The read-only `Vec::operator[](std::size_t i) const`:
`assert(i < size()); return expr_rep[i];`. -/
def Vec.index {T : Type} [Add T] [Mul T] (ndebug : Bool) (σ : Store T) (v : Vec T) (i : Nat) :
    Except Failure T := do
  assert ndebug .outOfRange (do
    let n ← v.size ndebug σ
    pure (decide (i < n)))
  v.expr_rep.index σ i

/-- The mutable `T& Vec::operator[](std::size_t i)` of an owning `Vec<T>` over buffer `buf`:
`assert(i < size()); return expr_rep[i];`.  The result is the element referred to. -/
def Vec.indexMut {T : Type} (ndebug : Bool) (σ : Store T) (buf : Nat) (i : Nat) :
    Except Failure (Ref T) := do
  assert ndebug .outOfRange (do
    let n ← Vec.size ndebug σ ⟨.vector buf⟩
    pure (decide (i < n)))
  if i < (σ buf).length then pure (.elem buf i) else throw .undefinedBehaviour

/-- The store after `expr_rep[i] = x` on the `std::vector` numbered `buf` (`none`: `i` is
outside the vector, undefined behaviour). -/
def vectorWrite {T : Type} (σ : Store T) (buf : Nat) (i : Nat) (x : T) : Option (Store T) :=
  if i < (σ buf).length then some (Function.update σ buf ((σ buf).set i x)) else none

/-- How control leaves `operator=`: it returned, or it stopped at a failure; either way with
the store reached at that point.  `outOfFuel`: the model's loop budget ran out. -/
inductive Outcome (T : Type) where
  | returned (σ : Store T)
  | failed (f : Failure) (σ : Store T)
  | outOfFuel

/-- The loop of `Vec::operator=`, from index `i` on:
`for ( ; i < b.size() ; ++i) expr_rep[i] = b[i];` with `expr_rep` the buffer `dst`. -/
def assignLoop {T : Type} [Add T] [Mul T] (ndebug : Bool) (dst : Nat) (b : Vec T) :
    Nat → Nat → Store T → Outcome T
  | 0, _, _ => .outOfFuel
  | fuel + 1, i, σ =>
    match b.size ndebug σ with
    | .error f => .failed f σ
    | .ok n =>
      if i < n then
        match b.index ndebug σ i with
        | .error f => .failed f σ
        | .ok x =>
          match vectorWrite σ dst i x with
          | none => .failed .undefinedBehaviour σ
          | some σ' => assignLoop ndebug dst b fuel (i + 1) σ'
      else .returned σ

/-- Source `Vec& Vec::operator=(const Vec<T2, Rep2>& b)` (and the same-type overload, whose body is
the same) on the owning `Vec<T>` over buffer `dst`:
`assert(size() == b.size()); for (i = 0 ; i < b.size() ; ++i) expr_rep[i] = b[i];`. -/
def Vec.assign {T : Type} [Add T] [Mul T] (ndebug : Bool) (fuel : Nat) (σ : Store T)
    (dst : Nat) (b : Vec T) : Outcome T :=
  match assert ndebug .shapeMismatch (do
      let m ← Vec.size ndebug σ ⟨.vector dst⟩
      let n ← b.size ndebug σ
      pure (m == n)) with
  | .error f => .failed f σ
  | .ok () => assignLoop ndebug dst b fuel 0 σ

/-- Source `operator+(const Vec<T,Rep1>& a, const Vec<T,Rep2>& b)`:
`Vec<T,Rep>{ Rep{a.rep(), b.rep()} }` with `Rep = AddV<T,Rep1,Rep2>`. -/
def operator_plus {T : Type} (a b : Vec T) : Vec T :=
  ⟨.addV a.expr_rep b.expr_rep⟩

/-- Source `operator*(const T& a, const Vec<T,Rep2>& b)`:
`Vec<T,Rep>{ Rep{Scalar<T>(a), b.rep()} }` with `Rep = MultV<T,Scalar<T>,Rep2>`. -/
def operator_mul_scalar_vec {T : Type} (a : Ref T) (b : Vec T) : Vec T :=
  ⟨.multV (.scalar ⟨a⟩) b.expr_rep⟩

/-- Source `operator*(const Vec<T,Rep1>& a, const T& b) { return b*a; }`. -/
def operator_mul_vec_scalar {T : Type} (a : Vec T) (b : Ref T) : Vec T :=
  operator_mul_scalar_vec b a

/-- Source `operator*(const Vec<T,Rep1>& a, const Vec<T,Rep2>& b)`:
`Vec<T,Rep>{ Rep{a.rep(), b.rep()} }` with `Rep = MultV<T,Rep1,Rep2>`. -/
def operator_mul {T : Type} (a b : Vec T) : Vec T :=
  ⟨.multV a.expr_rep b.expr_rep⟩

/-- The contents of buffer `buf` when `operator=` returned (`none` when it did not). -/
def Outcome.buffer? {T : Type} : Outcome T → Nat → Option (List T)
  | .returned σ, buf => some (σ buf)
  | _, _ => none

/-- A store for examples: buffer `k` is the `k`-th list, every other buffer is empty. -/
def storeOf {T : Type} (bufs : List (List T)) : Store T := fun k => bufs.getD k []

/-- The right-hand side of line 209 of `main`, `a*v1*b + v2*v2`, over the owning buffers
numbered `v1` and `v2`; `a*v1*b` parses as `(a*v1)*b`. -/
def main_expression {T : Type} (a b : T) (v1 v2 : Nat) : Vec T :=
  operator_plus
    (operator_mul_vec_scalar (operator_mul_scalar_vec (.obj a) ⟨.vector v1⟩) (.obj b))
    (operator_mul ⟨.vector v2⟩ ⟨.vector v2⟩)

/-- Whether a `Scalar` inside the representation refers to an element of buffer `dst`. -/
def Rep.scalarInto {T : Type} (dst : Nat) : Rep T → Bool
  | .vector _ => false
  | .scalar ⟨.obj _⟩ => false
  | .scalar ⟨.elem buf _⟩ => buf == dst
  | .addV op1 op2 => op1.scalarInto dst || op2.scalarInto dst
  | .multV op1 op2 => op1.scalarInto dst || op2.scalarInto dst

/-- Whether the representation references buffer `dst`: as the storage of a leaf, or through
a `Scalar` that refers to one of its elements. -/
def Rep.references {T : Type} (dst : Nat) : Rep T → Bool
  | .vector buf => buf == dst
  | .scalar ⟨.obj _⟩ => false
  | .scalar ⟨.elem buf _⟩ => buf == dst
  | .addV op1 op2 => op1.references dst || op2.references dst
  | .multV op1 op2 => op1.references dst || op2.references dst

/-- Source `explicit Vec(std::size_t s) : expr_rep(s) { }` for an owning `Vec<T>` of a
numeric element type: `std::vector<T>(s)` holds `s` value-initialised elements, zero for a
numeric type.  `buf` is the number the new buffer gets; the result is the new facade and the
store with the new buffer. -/
def Vec.create {T : Type} [Zero T] (σ : Store T) (buf : Nat) (s : Nat) : Vec T × Store T :=
  (⟨.vector buf⟩, Function.update σ buf (List.replicate s 0))

/-- The owning buffers that an expression holds as storage leaves, left to right. -/
def Rep.buffers {T : Type} : Rep T → List Nat
  | .vector buf => [buf]
  | .scalar _ => []
  | .addV op1 op2 => op1.buffers ++ op2.buffers
  | .multV op1 op2 => op1.buffers ++ op2.buffers

/-- The `size()` of the tree that the comment in `main` (lines 212-217) builds by hand,
`Rep4(Rep2(Rep1(a,v1),b), Rep3(v2,v2))`, with `Rep1 = MultV<double, Scalar<double>,
Vec<double>>`, `Rep2 = MultV<double, Rep1, Scalar<double>>`, `Rep3 = MultV<double,
Vec<double>, Vec<double>>` and `Rep4 = AddV<double, Rep2, Rep3>`.  Its leaves are the facades
`Vec<double>` themselves, so a leaf's `size()` is `Vec::size`. -/
def hand_built_rep_size {T : Type} (ndebug : Bool) (σ : Store T) (a b : T) (v1 v2 : Nat) :
    Except Failure Nat :=
  let rep1 := nodeSize ndebug (.ok (Scalar.mk (.obj a)).size) (Vec.size ndebug σ ⟨.vector v1⟩)
  let rep2 := nodeSize ndebug rep1 (.ok (Scalar.mk (.obj b)).size)
  let rep3 := nodeSize ndebug (Vec.size ndebug σ ⟨.vector v2⟩) (Vec.size ndebug σ ⟨.vector v2⟩)
  nodeSize ndebug rep2 rep3

/-- The `operator[]` of the hand-built tree: `Rep4[i] = Rep2[i] + Rep3[i]`,
`Rep2[i] = Rep1[i] * Scalar(b)[i]`, `Rep1[i] = Scalar(a)[i] * v1[i]`,
`Rep3[i] = v2[i] * v2[i]`, the leaves read through `Vec::operator[] const`. -/
def hand_built_rep_index {T : Type} [Add T] [Mul T] (ndebug : Bool) (σ : Store T) (a b : T)
    (v1 v2 : Nat) (i : Nat) : Except Failure T := do
  let sa ← (Scalar.mk (.obj a)).index σ i
  let x ← Vec.index ndebug σ ⟨.vector v1⟩ i
  let sb ← (Scalar.mk (.obj b)).index σ i
  let y ← Vec.index ndebug σ ⟨.vector v2⟩ i
  let y' ← Vec.index ndebug σ ⟨.vector v2⟩ i
  pure (sa * x * sb + y * y')

/-- The facade `Vec<double, Rep4>` over the hand-built tree (line 217): its `size()`. -/
def hand_built_size {T : Type} (ndebug : Bool) (σ : Store T) (a b : T) (v1 v2 : Nat) :
    Except Failure Nat :=
  hand_built_rep_size ndebug σ a b v1 v2

/-- The facade `Vec<double, Rep4>` over the hand-built tree (line 217): its read-only
`operator[]`, `assert(i < size()); return expr_rep[i];`. -/
def hand_built_index {T : Type} [Add T] [Mul T] (ndebug : Bool) (σ : Store T) (a b : T)
    (v1 v2 : Nat) (i : Nat) : Except Failure T := do
  assert ndebug .outOfRange (do
    let n ← hand_built_size ndebug σ a b v1 v2
    pure (decide (i < n)))
  hand_built_rep_index ndebug σ a b v1 v2 i

/-- The positions at which resolving an expression at index `i` accesses the owning buffers
it holds as storage leaves: each `std::vector` leaf is accessed at position `i`
(`AddV::operator[]` and `MultV::operator[]` pass `i` on to both operands). -/
def Rep.reads {T : Type} : Rep T → Nat → List (Nat × Nat)
  | .vector buf, i => [(buf, i)]
  | .scalar _, _ => []
  | .addV op1 op2, i => op1.reads i ++ op2.reads i
  | .multV op1 op2, i => op1.reads i ++ op2.reads i

/-! ### The counting element type `Double` (lines 161-184)

`Double::count` is a static `int`; the operations of `Double` change it, so over `Double` the
expression code is embedded once more with the counter passed along. -/

/-- The class `Double`: it wraps `double d`.  The carrier `R` stands for `double`. -/
structure Double (R : Type) where
  d : R

/-- The largest value of `int` (32 bits). -/
def INT_MAX : Int := 2147483647

/-- The statement `count++` on `inline static int count`: the new value of the counter;
incrementing the largest `int` is a signed overflow, undefined behaviour. -/
def Double.count_increment (count : Int) : Except Failure Int :=
  if count < INT_MAX then .ok (count + 1) else .error .undefinedBehaviour

/-- Source `Double(double dd) : d(dd) { count++; }`. -/
def Double.ofDouble {R : Type} (dd : R) (count : Int) : Except Failure (Double R × Int) := do
  let c ← Double.count_increment count
  pure (⟨dd⟩, c)

/-- Source `Double(const Double& dd) : d(dd.d) { count++; }`. -/
def Double.copy {R : Type} (dd : Double R) (count : Int) : Except Failure (Double R × Int) := do
  let c ← Double.count_increment count
  pure (⟨dd.d⟩, c)

/-- Source `Double& operator=(const Double& dd) { d = dd.d; count++; return *this; }`: the
new value of `*this` and of the counter. -/
def Double.operator_assign {R : Type} (dd : Double R) (count : Int) :
    Except Failure (Double R × Int) := do
  let c ← Double.count_increment count
  pure (⟨dd.d⟩, c)

/-- Source `friend Double operator+(const Double& a, const Double& b)`:
`return Double{a.d + b.d};`. -/
def Double.operator_plus {R : Type} [Add R] (a b : Double R) (count : Int) :
    Except Failure (Double R × Int) :=
  Double.ofDouble (a.d + b.d) count

/-- Source `friend Double operator*(const Double& a, const Double& b)`:
`return Double{a.d * b.d};`. -/
def Double.operator_mul {R : Type} [Mul R] (a b : Double R) (count : Int) :
    Except Failure (Double R × Int) :=
  Double.ofDouble (a.d * b.d) count

/-- The value that `operator+` of `Double` returns, without the counter. -/
instance {R : Type} [Add R] : Add (Double R) := ⟨fun a b => ⟨a.d + b.d⟩⟩

/-- The value that `operator*` of `Double` returns, without the counter. -/
instance {R : Type} [Mul R] : Mul (Double R) := ⟨fun a b => ⟨a.d * b.d⟩⟩

/-- The `operator[]` of a representation over `Double`, with `Double::count` passed along:
the leaves return references (no `Double` is made), `AddV::operator[]` calls `operator+` and
`MultV::operator[]` calls `operator*` of `Double`, whose result is returned as it is. -/
def Rep.indexD {R : Type} [Add R] [Mul R] (σ : Store (Double R)) :
    Rep (Double R) → Nat → Int → Except Failure (Double R × Int)
  | .vector buf, i, count =>
    match (σ buf)[i]? with
    | some x => .ok (x, count)
    | none => .error .undefinedBehaviour
  | .scalar sc, i, count =>
    match sc.index σ i with
    | .ok x => .ok (x, count)
    | .error e => .error e
  | .addV op1 op2, i, count =>
    match op1.indexD σ i count with
    | .error e => .error e
    | .ok (x, c1) =>
      match op2.indexD σ i c1 with
      | .error e => .error e
      | .ok (y, c2) => Double.operator_plus x y c2
  | .multV op1 op2, i, count =>
    match op1.indexD σ i count with
    | .error e => .error e
    | .ok (x, c1) =>
      match op2.indexD σ i c1 with
      | .error e => .error e
      | .ok (y, c2) => Double.operator_mul x y c2

/-- The read-only `Vec::operator[]` over `Double`, with `Double::count` passed along:
`assert(i < size()); return expr_rep[i];` (the result of `expr_rep[i]` is returned as it is,
a reference or the temporary itself). -/
def Vec.indexD {R : Type} [Add R] [Mul R] (ndebug : Bool) (σ : Store (Double R))
    (v : Vec (Double R)) (i : Nat) (count : Int) : Except Failure (Double R × Int) :=
  match assert ndebug .outOfRange (do
      let n ← v.size ndebug σ
      pure (decide (i < n))) with
  | .error e => .error e
  | .ok () => v.expr_rep.indexD σ i count

/-- How control leaves `operator=` over `Double`: as `Outcome`, with the value of
`Double::count` reached. -/
inductive OutcomeD (R : Type) where
  | returned (σ : Store (Double R)) (count : Int)
  | failed (f : Failure) (σ : Store (Double R)) (count : Int)
  | outOfFuel

/-- The loop of `Vec::operator=` over `Double`, from index `i` on:
`for ( ; i < b.size() ; ++i) expr_rep[i] = b[i];`, where `=` is `Double::operator=`. -/
def assignLoopD {R : Type} [Add R] [Mul R] (ndebug : Bool) (dst : Nat) (b : Vec (Double R)) :
    Nat → Nat → Store (Double R) → Int → OutcomeD R
  | 0, _, _, _ => .outOfFuel
  | fuel + 1, i, σ, count =>
    match b.size ndebug σ with
    | .error f => .failed f σ count
    | .ok n =>
      if i < n then
        match b.indexD ndebug σ i count with
        | .error f => .failed f σ count
        | .ok (x, c1) =>
          match Double.operator_assign x c1 with
          | .error f => .failed f σ c1
          | .ok (y, c2) =>
            match vectorWrite σ dst i y with
            | none => .failed .undefinedBehaviour σ c2
            | some σ' => assignLoopD ndebug dst b fuel (i + 1) σ' c2
      else .returned σ count

/-- Source `Vec::operator=` over `Double`, on the owning `Vec<Double>` over buffer `dst`, from
the counter value `count`:
`assert(size() == b.size()); for (i = 0 ; i < b.size() ; ++i) expr_rep[i] = b[i];`. -/
def Vec.assignD {R : Type} [Add R] [Mul R] (ndebug : Bool) (fuel : Nat)
    (σ : Store (Double R)) (dst : Nat) (b : Vec (Double R)) (count : Int) : OutcomeD R :=
  match assert ndebug .shapeMismatch (do
      let m ← Vec.size ndebug σ ⟨.vector dst⟩
      let n ← b.size ndebug σ
      pure (m == n)) with
  | .error f => .failed f σ count
  | .ok () => assignLoopD ndebug dst b fuel 0 σ count

/-- The number of `AddV` and `MultV` nodes of an expression: resolving the expression at an
index calls `operator+` or `operator*` of the element type once per node. -/
def Rep.ops {T : Type} : Rep T → Nat
  | .vector _ => 0
  | .scalar _ => 0
  | .addV op1 op2 => op1.ops + op2.ops + 1
  | .multV op1 op2 => op1.ops + op2.ops + 1

/-- The value of `Double::count` when `operator=` over `Double` returned (`none` when it did
not). -/
def OutcomeD.count? {R : Type} : OutcomeD R → Option Int
  | .returned _ count => some count
  | _ => none

/-- A store whose buffers all hold `n` copies of `x`. -/
def uniformStore {T : Type} (n : Nat) (x : T) : Store T := fun _ => List.replicate n x

/-! ## The assertion macro and the size of a node -/

theorem assert_ndebug (f : Failure) (cond : Except Failure Bool) :
    assert true f cond = .ok () := rfl

theorem assert_checked_ok (f : Failure) (c : Bool) :
    assert false f (.ok c) = if c then .ok () else .error f := rfl

theorem assert_checked_error (f e : Failure) :
    assert false f (.error e) = .error e := rfl

theorem nodeSize_ndebug (a b : Nat) :
    nodeSize true (.ok a) (.ok b) = .ok (if a ≠ 0 then a else b) := by
  by_cases h : a = 0 <;> simp [nodeSize, assert, h, bind, Except.bind]

theorem nodeSize_checked (a b : Nat) :
    nodeSize false (.ok a) (.ok b)
      = if a = 0 ∨ b = 0 ∨ a = b then .ok (if a ≠ 0 then a else b)
        else .error .shapeMismatch := by
  by_cases ha : a = 0
  · simp [nodeSize, assert, ha, bind, Except.bind, pure, Except.pure]
  · by_cases hb : b = 0
    · simp [nodeSize, assert, ha, hb, bind, Except.bind, pure, Except.pure]
    · by_cases hab : a = b
      · subst hab
        simp [nodeSize, assert, ha, bind, Except.bind, pure, Except.pure]
      · simp [nodeSize, assert, ha, hb, hab, bind, Except.bind, pure, Except.pure]

/-- The size of a node over operands of sizes `a` and `b`, in either build. -/
theorem nodeSize_ok_ok (ndebug : Bool) (a b : Nat) :
    nodeSize ndebug (.ok a) (.ok b)
      = (if ndebug = false ∧ a ≠ 0 ∧ b ≠ 0 ∧ a ≠ b then .error .shapeMismatch
         else .ok (if a ≠ 0 then a else b)) := by
  cases ndebug
  · rw [nodeSize_checked]
    by_cases ha : a = 0
    · simp [ha]
    · by_cases hb : b = 0
      · simp [ha, hb]
      · by_cases hab : a = b <;> simp [ha, hb, hab]
  · rw [nodeSize_ndebug]
    simp

theorem nodeSize_error_left (ndebug : Bool) (e : Failure) (s2 : Except Failure Nat) :
    nodeSize ndebug (.error e) s2 = .error e := by
  cases ndebug <;> simp [nodeSize, assert, bind, Except.bind]

theorem nodeSize_checked_error_right (a : Nat) (e : Failure) (ha : a ≠ 0) :
    nodeSize false (.ok a) (.error e) = .error e := by
  simp [nodeSize, assert, ha, bind, Except.bind, pure, Except.pure]

/-- With `NDEBUG` defined, `size()` of a representation never fails. -/
theorem Rep.size_ndebug_total {T : Type} (σ : Store T) (r : Rep T) :
    ∃ n, r.size true σ = .ok n := by
  induction r with
  | vector buf => exact ⟨_, rfl⟩
  | scalar sc => exact ⟨_, rfl⟩
  | addV op1 op2 ih1 ih2 =>
    obtain ⟨a, ha⟩ := ih1
    obtain ⟨b, hb⟩ := ih2
    exact ⟨_, by rw [Rep.size, ha, hb, nodeSize_ndebug]⟩
  | multV op1 op2 ih1 ih2 =>
    obtain ⟨a, ha⟩ := ih1
    obtain ⟨b, hb⟩ := ih2
    exact ⟨_, by rw [Rep.size, ha, hb, nodeSize_ndebug]⟩

/-- What a successful `nodeSize` says about the operands, in either build. -/
theorem nodeSize_eq_ok (ndebug : Bool) (s1 s2 : Except Failure Nat) (n : Nat)
    (h : nodeSize ndebug s1 s2 = .ok n) :
    ∃ a, s1 = .ok a ∧ ((a ≠ 0 ∧ n = a ∧ (ndebug = false → ∃ b, s2 = .ok b ∧ (b = 0 ∨ a = b)))
      ∨ (a = 0 ∧ s2 = .ok n)) := by
  cases s1 with
  | error e => rw [nodeSize_error_left] at h; cases h
  | ok a =>
    refine ⟨a, rfl, ?_⟩
    by_cases ha : a = 0
    · right
      refine ⟨ha, ?_⟩
      subst ha
      cases ndebug <;> cases s2 <;>
        simp_all [nodeSize, assert, bind, Except.bind, pure, Except.pure]
    · left
      cases ndebug with
      | true =>
        refine ⟨ha, ?_, by simp⟩
        simp [nodeSize, assert, bind, Except.bind, ha] at h
        exact h.symm
      | false =>
        cases s2 with
        | error e => rw [nodeSize_checked_error_right a e ha] at h; cases h
        | ok b =>
          rw [nodeSize_checked] at h
          by_cases hc : a = 0 ∨ b = 0 ∨ a = b
          · rw [if_pos hc, if_pos ha] at h
            refine ⟨ha, by cases h; rfl, fun _ => ⟨b, rfl, ?_⟩⟩
            rcases hc with h0 | h0 | h0
            · exact absurd h0 ha
            · exact Or.inl h0
            · exact Or.inr h0
          · rw [if_neg hc] at h; cases h

/-- The size of a representation depends on the store only through the buffers' lengths. -/
theorem Rep.size_congr {T : Type} (ndebug : Bool) (σ σ' : Store T)
    (hlen : ∀ k, (σ' k).length = (σ k).length) (r : Rep T) :
    r.size ndebug σ' = r.size ndebug σ := by
  induction r with
  | vector buf => simp [Rep.size, hlen]
  | scalar sc => rfl
  | addV op1 op2 ih1 ih2 => simp [Rep.size, ih1, ih2]
  | multV op1 op2 ih1 ih2 => simp [Rep.size, ih1, ih2]

/-- A size that the checked build computes is the size the `NDEBUG` build computes. -/
theorem Rep.size_ndebug_of_size {T : Type} (ndebug : Bool) (σ : Store T) (r : Rep T) (n : Nat)
    (h : r.size ndebug σ = .ok n) : r.size true σ = .ok n := by
  induction r generalizing n with
  | vector buf => exact h
  | scalar sc => exact h
  | addV op1 op2 ih1 ih2 =>
    rw [Rep.size] at h ⊢
    obtain ⟨a, h1, hcase⟩ := nodeSize_eq_ok _ _ _ _ h
    obtain ⟨b, hb⟩ := Rep.size_ndebug_total σ op2
    rw [ih1 a h1, hb, nodeSize_ndebug]
    rcases hcase with ⟨ha, hn, -⟩ | ⟨ha, h2⟩
    · simp [ha, hn]
    · have := ih2 n h2
      rw [hb] at this
      simp [ha]
      cases this; rfl
  | multV op1 op2 ih1 ih2 =>
    rw [Rep.size] at h ⊢
    obtain ⟨a, h1, hcase⟩ := nodeSize_eq_ok _ _ _ _ h
    obtain ⟨b, hb⟩ := Rep.size_ndebug_total σ op2
    rw [ih1 a h1, hb, nodeSize_ndebug]
    rcases hcase with ⟨ha, hn, -⟩ | ⟨ha, h2⟩
    · simp [ha, hn]
    · have := ih2 n h2
      rw [hb] at this
      simp [ha]
      cases this; rfl

/-! ## Reading an expression in a changed store -/

theorem Rep.scalarInto_of_references {T : Type} (dst : Nat) (r : Rep T)
    (h : r.references dst = false) : r.scalarInto dst = false := by
  induction r with
  | vector buf => rfl
  | scalar sc =>
    obtain ⟨s⟩ := sc
    cases s <;> simp_all [Rep.references, Rep.scalarInto]
  | addV op1 op2 ih1 ih2 =>
    simp only [Rep.references, Bool.or_eq_false_iff] at h
    simp [Rep.scalarInto, ih1 h.1, ih2 h.2]
  | multV op1 op2 ih1 ih2 =>
    simp only [Rep.references, Bool.or_eq_false_iff] at h
    simp [Rep.scalarInto, ih1 h.1, ih2 h.2]

/-- Reading index `j` of an expression gives the same in two stores that agree outside
buffer `dst` and on `dst` from index `i ≤ j` on, when no scalar refers into `dst`. -/
theorem Rep.index_congr_from {T : Type} [Add T] [Mul T] (σ σ' : Store T) (dst i j : Nat)
    (hoff : ∀ k, k ≠ dst → σ' k = σ k)
    (hfrom : ∀ l, i ≤ l → (σ' dst)[l]? = (σ dst)[l]?) (hij : i ≤ j)
    (r : Rep T) (hs : r.scalarInto dst = false) :
    r.index σ' j = r.index σ j := by
  induction r with
  | vector buf =>
    by_cases hb : buf = dst
    · subst hb; simp only [Rep.index, hfrom j hij]
    · simp only [Rep.index, hoff buf hb]
  | scalar sc =>
    obtain ⟨s⟩ := sc
    cases s with
    | obj value => rfl
    | elem buf l =>
      have hb : buf ≠ dst := by simpa [Rep.scalarInto] using hs
      simp only [Rep.index, Scalar.index, Ref.read, hoff buf hb]
  | addV op1 op2 ih1 ih2 =>
    simp only [Rep.scalarInto, Bool.or_eq_false_iff] at hs
    simp only [Rep.index, ih1 hs.1, ih2 hs.2]
  | multV op1 op2 ih1 ih2 =>
    simp only [Rep.scalarInto, Bool.or_eq_false_iff] at hs
    simp only [Rep.index, ih1 hs.1, ih2 hs.2]

/-- Inside its size, the facade's `operator[]` is the representation's, in either build. -/
theorem Vec.index_of_lt {T : Type} [Add T] [Mul T] (ndebug : Bool) (σ : Store T) (v : Vec T)
    (n i : Nat) (hsize : v.size ndebug σ = .ok n) (hi : i < n) :
    v.index ndebug σ i = v.expr_rep.index σ i := by
  cases ndebug <;>
    simp [Vec.index, assert, hsize, hi, bind, Except.bind, pure, Except.pure]

/-- With `NDEBUG` defined, the facade's `operator[]` is the representation's. -/
theorem Vec.index_ndebug {T : Type} [Add T] [Mul T] (σ : Store T) (v : Vec T) (i : Nat) :
    v.index true σ i = v.expr_rep.index σ i := by
  simp [Vec.index, assert, bind, Except.bind]

theorem vectorWrite_of_lt {T : Type} (σ : Store T) (buf i : Nat) (x : T)
    (hi : i < (σ buf).length) :
    vectorWrite σ buf i x = some (Function.update σ buf ((σ buf).set i x)) := by
  simp [vectorWrite, hi]

/-! ## The loop of `operator=` -/

/-- The loop of `operator=` from index `i` on, in a store that still agrees with the initial
store `σ₀` outside `dst[0..i)`: when the source has size `N`, the destination has at least
`N` elements, no scalar of the source refers into the destination and the source resolves at
every index below `N`, the loop returns, having written the source's values to `dst[i..N)`
and nothing else. -/
theorem assignLoop_returns {T : Type} [Add T] [Mul T] (ndebug : Bool) (dst : Nat) (b : Vec T)
    (σ₀ : Store T) (N : Nat)
    (hsize : b.size ndebug σ₀ = .ok N) (hle : N ≤ (σ₀ dst).length)
    (hs : b.expr_rep.scalarInto dst = false)
    (hres : ∀ j, j < N → ∃ x, b.expr_rep.index σ₀ j = .ok x) :
    ∀ (k i fuel : Nat) (σ : Store T), i + k = N → k < fuel →
      (∀ r, r ≠ dst → σ r = σ₀ r) → (σ dst).length = (σ₀ dst).length →
      (∀ l, i ≤ l → (σ dst)[l]? = (σ₀ dst)[l]?) →
      ∃ σ', assignLoop ndebug dst b fuel i σ = .returned σ'
        ∧ (∀ r, r ≠ dst → σ' r = σ₀ r) ∧ (σ' dst).length = (σ₀ dst).length
        ∧ (∀ j, j < i → (σ' dst)[j]? = (σ dst)[j]?)
        ∧ (∀ j, i ≤ j → j < N → ∀ x, b.expr_rep.index σ₀ j = .ok x → (σ' dst)[j]? = some x)
        ∧ (∀ l, N ≤ l → (σ' dst)[l]? = (σ₀ dst)[l]?) := by
  intro k
  induction k with
  | zero =>
    intro i fuel σ hik hfuel hoff hlen hfrom
    obtain ⟨fuel, rfl⟩ : ∃ f, fuel = f + 1 := ⟨fuel - 1, by omega⟩
    have hsz : b.size ndebug σ = .ok N := by
      rw [← hsize]
      refine Rep.size_congr ndebug σ₀ σ (fun r => ?_) b.expr_rep
      by_cases hr : r = dst
      · subst hr; rw [hlen]
      · rw [hoff r hr]
    refine ⟨σ, ?_, hoff, hlen, fun _ _ => rfl, fun j hj hjN => by omega,
      fun l hl => hfrom l (by omega)⟩
    have : ¬ i < N := by omega
    simp [assignLoop, hsz, this]
  | succ k ih =>
    intro i fuel σ hik hfuel hoff hlen hfrom
    obtain ⟨fuel, rfl⟩ : ∃ f, fuel = f + 1 := ⟨fuel - 1, by omega⟩
    have hiN : i < N := by omega
    have hsz : b.size ndebug σ = .ok N := by
      rw [← hsize]
      refine Rep.size_congr ndebug σ₀ σ (fun r => ?_) b.expr_rep
      by_cases hr : r = dst
      · subst hr; rw [hlen]
      · rw [hoff r hr]
    obtain ⟨x, hx⟩ := hres i hiN
    have hread : b.index ndebug σ i = .ok x := by
      rw [Vec.index_of_lt ndebug σ b N i hsz hiN,
        Rep.index_congr_from σ₀ σ dst i i hoff hfrom (Nat.le_refl i) b.expr_rep hs, hx]
    have hw := vectorWrite_of_lt σ dst i x (by omega)
    obtain ⟨σ', hret, hoff', hlen', hbelow, habove, hrest⟩ :=
      ih (i + 1) fuel (Function.update σ dst ((σ dst).set i x)) (by omega) (by omega)
        (fun r hr => by rw [Function.update_noteq hr]; exact hoff r hr)
        (by simp [hlen])
        (fun l hl => by
          rw [Function.update_same, List.getElem?_set_ne (by omega)]
          exact hfrom l (by omega))
    refine ⟨σ', ?_, hoff', hlen', ?_, ?_, hrest⟩
    · simp [assignLoop, hsz, hiN, hread, hw, hret]
    · intro j hj
      rw [hbelow j (by omega), Function.update_same, List.getElem?_set_ne (by omega)]
    · intro j hij hjN y hy
      by_cases hji : j = i
      · subst hji
        rw [hx] at hy
        cases hy
        rw [hbelow j (by omega), Function.update_same,
          List.getElem?_set_self (by omega)]
      · exact habove j (by omega) hjN y hy

/-- The assignment `operator=` returns when the sizes agree, no scalar of the source refers into the
destination and the source resolves at every index: the destination then holds the source's
values and every other buffer is as before. -/
theorem Vec.assign_returns {T : Type} [Add T] [Mul T] (ndebug : Bool) (fuel : Nat)
    (σ : Store T) (dst : Nat) (b : Vec T) (N : Nat)
    (hsize : b.size ndebug σ = .ok N) (hdst : (σ dst).length = N)
    (hs : b.expr_rep.scalarInto dst = false)
    (hres : ∀ j, j < N → ∃ x, b.expr_rep.index σ j = .ok x) (hfuel : N < fuel) :
    ∃ σ', Vec.assign ndebug fuel σ dst b = .returned σ'
      ∧ (∀ r, r ≠ dst → σ' r = σ r) ∧ (σ' dst).length = N
      ∧ (∀ j, j < N → ∀ x, b.expr_rep.index σ j = .ok x → (σ' dst)[j]? = some x) := by
  obtain ⟨σ', hret, hoff, hlen, -, hval, -⟩ :=
    assignLoop_returns ndebug dst b σ N hsize (by omega) hs hres N 0 fuel σ (by omega) hfuel
      (fun _ _ => rfl) rfl (fun _ _ => rfl)
  refine ⟨σ', ?_, hoff, by omega, fun j hj x hx => hval j (Nat.zero_le j) hj x hx⟩
  have hassert : assert ndebug .shapeMismatch (do
      let m ← Vec.size ndebug σ ⟨.vector dst⟩
      let n ← b.size ndebug σ
      pure (m == n)) = .ok () := by
    cases ndebug
    · simp [assert, Vec.size, Rep.size, hdst, bind, Except.bind, pure,
        Except.pure, show b.expr_rep.size false σ = .ok N from hsize]
    · rfl
  rw [Vec.assign, hassert]
  exact hret

/-- With `NDEBUG` defined `operator=` checks no size: a source of size `N` not larger than
the destination overwrites `dst[0..N)` with its values and leaves the rest of the destination
and every other buffer as before. -/
theorem Vec.assign_ndebug_prefix {T : Type} [Add T] [Mul T] (fuel : Nat)
    (σ : Store T) (dst : Nat) (b : Vec T) (N : Nat)
    (hsize : b.size true σ = .ok N) (hle : N ≤ (σ dst).length)
    (hs : b.expr_rep.scalarInto dst = false)
    (hres : ∀ j, j < N → ∃ x, b.expr_rep.index σ j = .ok x) (hfuel : N < fuel) :
    ∃ σ', Vec.assign true fuel σ dst b = .returned σ'
      ∧ (∀ r, r ≠ dst → σ' r = σ r) ∧ (σ' dst).length = (σ dst).length
      ∧ (∀ j, j < N → ∀ x, b.expr_rep.index σ j = .ok x → (σ' dst)[j]? = some x)
      ∧ (∀ l, N ≤ l → (σ' dst)[l]? = (σ dst)[l]?) := by
  obtain ⟨σ', hret, hoff, hlen, -, hval, hrest⟩ :=
    assignLoop_returns true dst b σ N hsize hle hs hres N 0 fuel σ (by omega) hfuel
      (fun _ _ => rfl) rfl (fun _ _ => rfl)
  exact ⟨σ', hret, hoff, hlen, fun j hj x hx => hval j (Nat.zero_le j) hj x hx, hrest⟩

/-- Reading an owning buffer inside its length, in either build. -/
theorem Vec.index_vector {T : Type} [Add T] [Mul T] (ndebug : Bool) (σ : Store T)
    (buf i : Nat) (x : T) (hx : (σ buf)[i]? = some x) :
    Vec.index ndebug σ ⟨.vector buf⟩ i = .ok x := by
  have hi : i < (σ buf).length := by
    by_contra hcon
    rw [List.getElem?_eq_none (by omega)] at hx
    cases hx
  rw [Vec.index_of_lt ndebug σ ⟨.vector buf⟩ (σ buf).length i rfl hi]
  simp [Rep.index, hx]

/-! ## The expression of `main` -/

theorem main_expression_size {T : Type} (ndebug : Bool) (σ : Store T) (a b : T)
    (v1 v2 N : Nat) (h1 : (σ v1).length = N) (h2 : (σ v2).length = N) :
    (main_expression a b v1 v2).size ndebug σ = .ok N := by
  cases ndebug
  · simp [main_expression, operator_plus, operator_mul_vec_scalar, operator_mul_scalar_vec,
      operator_mul, Vec.size, Rep.size, Scalar.size, nodeSize_checked, h1, h2]
  · simp only [main_expression, operator_plus, operator_mul_vec_scalar,
      operator_mul_scalar_vec, operator_mul, Vec.size, Rep.size, Scalar.size,
      nodeSize_ndebug, h1, h2]
    by_cases hN : N = 0 <;> simp [hN]

/-- The value the expression of `main` resolves to: the commuted product `(a*v1)*b` is built
as `b*(a*v1)`, so the scalar `b` is the left factor. -/
theorem main_expression_index {T : Type} [Add T] [Mul T] (σ : Store T) (a b : T)
    (v1 v2 i : Nat) (x y : T) (hx : (σ v1)[i]? = some x) (hy : (σ v2)[i]? = some y) :
    (main_expression a b v1 v2).expr_rep.index σ i = .ok (b * (a * x) + y * y) := by
  simp [main_expression, operator_plus, operator_mul_vec_scalar, operator_mul_scalar_vec,
    operator_mul, Rep.index, Scalar.index, Ref.read, hx, hy, bind, Except.bind, pure,
    Except.pure]

/-- Reading an expression that does not reference buffer `dst` gives the same in two stores
that agree outside `dst`. -/
theorem Rep.index_congr_off {T : Type} [Add T] [Mul T] (σ σ' : Store T) (dst j : Nat)
    (hoff : ∀ k, k ≠ dst → σ' k = σ k) (r : Rep T) (href : r.references dst = false) :
    r.index σ' j = r.index σ j := by
  induction r with
  | vector buf =>
    have hb : buf ≠ dst := by simpa [Rep.references] using href
    simp only [Rep.index, hoff buf hb]
  | scalar sc =>
    obtain ⟨s⟩ := sc
    cases s with
    | obj value => rfl
    | elem buf l =>
      have hb : buf ≠ dst := by simpa [Rep.references] using href
      simp only [Rep.index, Scalar.index, Ref.read, hoff buf hb]
  | addV op1 op2 ih1 ih2 =>
    simp only [Rep.references, Bool.or_eq_false_iff] at href
    simp only [Rep.index, ih1 href.1, ih2 href.2]
  | multV op1 op2 ih1 ih2 =>
    simp only [Rep.references, Bool.or_eq_false_iff] at href
    simp only [Rep.index, ih1 href.1, ih2 href.2]

/-! ## The size assertion of `operator=` with assertions enabled -/

theorem Vec.assign_checked_size_error {T : Type} [Add T] [Mul T] (fuel : Nat) (σ : Store T)
    (dst : Nat) (b : Vec T) (e : Failure) (h : b.size false σ = .error e) :
    Vec.assign false fuel σ dst b = .failed e σ := by
  have h' : b.expr_rep.size false σ = .error e := h
  simp [Vec.assign, assert, Vec.size, Rep.size, h', bind, Except.bind]

theorem Vec.assign_checked_size_ne {T : Type} [Add T] [Mul T] (fuel : Nat) (σ : Store T)
    (dst : Nat) (b : Vec T) (n : Nat) (h : b.size false σ = .ok n)
    (hne : (σ dst).length ≠ n) :
    Vec.assign false fuel σ dst b = .failed .shapeMismatch σ := by
  have h' : b.expr_rep.size false σ = .ok n := h
  simp [Vec.assign, assert, Vec.size, Rep.size, h', bind, Except.bind, pure, Except.pure, hne]

theorem Vec.assign_checked_size_eq {T : Type} [Add T] [Mul T] (fuel : Nat) (σ : Store T)
    (dst : Nat) (b : Vec T) (n : Nat) (h : b.size false σ = .ok n)
    (heq : (σ dst).length = n) :
    Vec.assign false fuel σ dst b = assignLoop false dst b fuel 0 σ := by
  have h' : b.expr_rep.size false σ = .ok n := h
  simp [Vec.assign, assert, Vec.size, Rep.size, h', bind, Except.bind, pure, Except.pure, heq]

/-! ## Which reads are defined -/

theorem Rep.index_vector_defined {T : Type} [Add T] [Mul T] (σ : Store T) (buf i : Nat) :
    (∃ x, (Rep.vector buf : Rep T).index σ i = .ok x) ↔ i < (σ buf).length := by
  constructor
  · rintro ⟨x, hx⟩
    by_contra hcon
    simp [Rep.index, List.getElem?_eq_none (Nat.le_of_not_lt hcon)] at hx
  · intro hi
    exact ⟨(σ buf)[i], by simp [Rep.index, List.getElem?_eq_getElem hi]⟩

theorem Ref.read_defined {T : Type} (σ : Store T) (buf l : Nat) :
    (∃ x, (Ref.elem buf l : Ref T).read σ = .ok x) ↔ l < (σ buf).length := by
  constructor
  · rintro ⟨x, hx⟩
    by_contra hcon
    simp [Ref.read, List.getElem?_eq_none (Nat.le_of_not_lt hcon)] at hx
  · intro hi
    exact ⟨(σ buf)[l], by simp [Ref.read, List.getElem?_eq_getElem hi]⟩

theorem Rep.index_addV_defined {T : Type} [Add T] [Mul T] (σ : Store T) (op1 op2 : Rep T)
    (i : Nat) :
    (∃ z, (Rep.addV op1 op2).index σ i = .ok z)
      ↔ (∃ x, op1.index σ i = .ok x) ∧ (∃ y, op2.index σ i = .ok y) := by
  cases h1 : op1.index σ i <;> cases h2 : op2.index σ i <;>
    simp [Rep.index, h1, h2, bind, Except.bind, pure, Except.pure]

theorem Rep.index_multV_defined {T : Type} [Add T] [Mul T] (σ : Store T) (op1 op2 : Rep T)
    (i : Nat) :
    (∃ z, (Rep.multV op1 op2).index σ i = .ok z)
      ↔ (∃ x, op1.index σ i = .ok x) ∧ (∃ y, op2.index σ i = .ok y) := by
  cases h1 : op1.index σ i <;> cases h2 : op2.index σ i <;>
    simp [Rep.index, h1, h2, bind, Except.bind, pure, Except.pure]

/-- In a build with assertions enabled, an expression whose `size()` succeeds with `s`
resolves either at every index below `s` or at none, and this does not change when elements
of buffers are overwritten.  (When `s` is 0 the same holds for all indices.) -/
theorem Rep.index_defined_uniform {T : Type} [Add T] [Mul T] (σ σ' : Store T)
    (hlen : ∀ k, (σ' k).length = (σ k).length) (r : Rep T) :
    ∀ (s i j : Nat), r.size false σ = .ok s → (s = 0 ∨ (i < s ∧ j < s)) →
      (∃ x, r.index σ i = .ok x) → ∃ y, r.index σ' j = .ok y := by
  induction r with
  | vector buf =>
    intro s i j hs hij hdef
    rw [Rep.index_vector_defined] at hdef ⊢
    have : s = (σ buf).length := by
      simp only [Rep.size, Except.ok.injEq] at hs
      exact hs.symm
    rw [hlen]
    omega
  | scalar sc =>
    intro s i j _ _ hdef
    obtain ⟨r⟩ := sc
    cases r with
    | obj value => exact ⟨value, rfl⟩
    | elem buf l =>
      have h1 : l < (σ buf).length := (Ref.read_defined σ buf l).1 hdef
      exact (Ref.read_defined σ' buf l).2 (by rw [hlen]; exact h1)
  | addV op1 op2 ih1 ih2 =>
    intro s i j hs hij hdef
    rw [Rep.index_addV_defined] at hdef ⊢
    rw [Rep.size] at hs
    obtain ⟨a, h1, hcase⟩ := nodeSize_eq_ok _ _ _ _ hs
    rcases hcase with ⟨-, hsa, hb⟩ | ⟨ha, h2⟩
    · obtain ⟨b, h2, hb⟩ := hb rfl
      refine ⟨ih1 a i j h1 (by omega) hdef.1, ih2 b i j h2 ?_ hdef.2⟩
      rcases hb with hb | hb
      · exact Or.inl hb
      · omega
    · exact ⟨ih1 a i j h1 (Or.inl ha) hdef.1, ih2 s i j h2 hij hdef.2⟩
  | multV op1 op2 ih1 ih2 =>
    intro s i j hs hij hdef
    rw [Rep.index_multV_defined] at hdef ⊢
    rw [Rep.size] at hs
    obtain ⟨a, h1, hcase⟩ := nodeSize_eq_ok _ _ _ _ hs
    rcases hcase with ⟨-, hsa, hb⟩ | ⟨ha, h2⟩
    · obtain ⟨b, h2, hb⟩ := hb rfl
      refine ⟨ih1 a i j h1 (by omega) hdef.1, ih2 b i j h2 ?_ hdef.2⟩
      rcases hb with hb | hb
      · exact Or.inl hb
      · omega
    · exact ⟨ih1 a i j h1 (Or.inl ha) hdef.1, ih2 s i j h2 hij hdef.2⟩

/-- The loop of `operator=` cannot fail when the source resolves at every index below its
size `N` in every store with the same buffer lengths, and the destination has at least `N`
elements: it returns, having changed no length and no buffer but the destination. -/
theorem assignLoop_never_fails {T : Type} [Add T] [Mul T] (ndebug : Bool) (dst : Nat)
    (b : Vec T) (σ₀ : Store T) (N : Nat)
    (hsize : b.size ndebug σ₀ = .ok N) (hle : N ≤ (σ₀ dst).length)
    (hrob : ∀ σ : Store T, (∀ r, (σ r).length = (σ₀ r).length) →
      ∀ j, j < N → ∃ x, b.expr_rep.index σ j = .ok x) :
    ∀ (k i fuel : Nat) (σ : Store T), i + k = N → k < fuel →
      (∀ r, r ≠ dst → σ r = σ₀ r) → (σ dst).length = (σ₀ dst).length →
      ∃ σ', assignLoop ndebug dst b fuel i σ = .returned σ'
        ∧ (∀ r, r ≠ dst → σ' r = σ₀ r) ∧ (σ' dst).length = (σ₀ dst).length := by
  intro k
  induction k with
  | zero =>
    intro i fuel σ hik hfuel hoff hlen
    obtain ⟨fuel, rfl⟩ : ∃ f, fuel = f + 1 := ⟨fuel - 1, by omega⟩
    have hsz : b.size ndebug σ = .ok N := by
      rw [← hsize]
      refine Rep.size_congr ndebug σ₀ σ (fun r => ?_) b.expr_rep
      by_cases hr : r = dst
      · subst hr; rw [hlen]
      · rw [hoff r hr]
    refine ⟨σ, ?_, hoff, hlen⟩
    have : ¬ i < N := by omega
    simp [assignLoop, hsz, this]
  | succ k ih =>
    intro i fuel σ hik hfuel hoff hlen
    obtain ⟨fuel, rfl⟩ : ∃ f, fuel = f + 1 := ⟨fuel - 1, by omega⟩
    have hiN : i < N := by omega
    have hlens : ∀ r, (σ r).length = (σ₀ r).length := fun r => by
      by_cases hr : r = dst
      · subst hr; rw [hlen]
      · rw [hoff r hr]
    have hsz : b.size ndebug σ = .ok N := by
      rw [← hsize]
      exact Rep.size_congr ndebug σ₀ σ hlens b.expr_rep
    obtain ⟨x, hx⟩ := hrob σ hlens i hiN
    have hread : b.index ndebug σ i = .ok x := by
      rw [Vec.index_of_lt ndebug σ b N i hsz hiN, hx]
    have hw := vectorWrite_of_lt σ dst i x (by omega)
    obtain ⟨σ', hret, hoff', hlen'⟩ :=
      ih (i + 1) fuel (Function.update σ dst ((σ dst).set i x)) (by omega) (by omega)
        (fun r hr => by rw [Function.update_noteq hr]; exact hoff r hr)
        (by simp [hlen])
    exact ⟨σ', by simp [assignLoop, hsz, hiN, hread, hw, hret], hoff', hlen'⟩

/-! ## Expressions over buffers of one length -/

/-- When every buffer an expression holds has length `N`, its `size()` succeeds in either
build: with `N` if the expression holds a buffer, with 0 if it holds scalars only. -/
theorem Rep.size_of_buffers {T : Type} (ndebug : Bool) (σ : Store T) (N : Nat) (r : Rep T)
    (hall : ∀ buf, buf ∈ r.buffers → (σ buf).length = N) :
    r.size ndebug σ = .ok (if r.buffers = [] then 0 else N) := by
  induction r with
  | vector buf => simp [Rep.size, Rep.buffers, hall buf (by simp [Rep.buffers])]
  | scalar sc => simp [Rep.size, Rep.buffers, Scalar.size]
  | addV op1 op2 ih1 ih2 =>
    have e1 := ih1 (fun buf hb => hall buf (by simp [Rep.buffers, hb]))
    have e2 := ih2 (fun buf hb => hall buf (by simp [Rep.buffers, hb]))
    rw [Rep.size, e1, e2, nodeSize_ok_ok]
    by_cases h1 : op1.buffers = [] <;> by_cases h2 : op2.buffers = [] <;>
      by_cases hN : N = 0 <;> simp [Rep.buffers, h1, h2, hN]
  | multV op1 op2 ih1 ih2 =>
    have e1 := ih1 (fun buf hb => hall buf (by simp [Rep.buffers, hb]))
    have e2 := ih2 (fun buf hb => hall buf (by simp [Rep.buffers, hb]))
    rw [Rep.size, e1, e2, nodeSize_ok_ok]
    by_cases h1 : op1.buffers = [] <;> by_cases h2 : op2.buffers = [] <;>
      by_cases hN : N = 0 <;> simp [Rep.buffers, h1, h2, hN]

/-- With `NDEBUG` defined, `operator=` from a source of size 0 returns at once, with every
buffer as it was. -/
theorem Vec.assign_ndebug_size_zero {T : Type} [Add T] [Mul T] (fuel : Nat) (σ : Store T)
    (dst : Nat) (b : Vec T) (h : b.size true σ = .ok 0) :
    Vec.assign true (fuel + 1) σ dst b = .returned σ := by
  simp [Vec.assign, assert, assignLoop, h]

/-! ## What `operator=` leaves unchanged -/

/-- When the loop of `operator=` returns, it has changed no buffer but the destination, and
not the destination's length. -/
theorem assignLoop_frame {T : Type} [Add T] [Mul T] (ndebug : Bool) (dst : Nat) (b : Vec T) :
    ∀ (fuel i : Nat) (σ σ' : Store T), assignLoop ndebug dst b fuel i σ = .returned σ' →
      (σ' dst).length = (σ dst).length ∧ ∀ r, r ≠ dst → σ' r = σ r := by
  intro fuel
  induction fuel with
  | zero => intro i σ σ' h; simp [assignLoop] at h
  | succ fuel ih =>
    intro i σ σ' h
    rw [assignLoop] at h
    cases hsz : b.size ndebug σ with
    | error f => simp [hsz] at h
    | ok n =>
      by_cases hi : i < n
      · cases hread : b.index ndebug σ i with
        | error f => simp [hsz, hi, hread] at h
        | ok x =>
          by_cases hw : i < (σ dst).length
          · simp only [hsz, hi, hread, if_true, vectorWrite_of_lt σ dst i x hw] at h
            obtain ⟨hlen, hoff⟩ := ih (i + 1) _ σ' h
            refine ⟨by rw [hlen]; simp, fun r hr => ?_⟩
            rw [hoff r hr, Function.update_noteq hr]
          · simp [hsz, hi, hread, vectorWrite, hw] at h
      · simp only [hsz, hi, if_false] at h
        cases h
        exact ⟨rfl, fun _ _ => rfl⟩

/-- When `operator=` returns, it has changed no buffer but the destination, and not the
destination's length. -/
theorem Vec.assign_frame {T : Type} [Add T] [Mul T] (ndebug : Bool) (fuel : Nat)
    (σ σ' : Store T) (dst : Nat) (b : Vec T)
    (h : Vec.assign ndebug fuel σ dst b = .returned σ') :
    (σ' dst).length = (σ dst).length ∧ ∀ r, r ≠ dst → σ' r = σ r := by
  rw [Vec.assign] at h
  split at h
  · cases h
  · exact assignLoop_frame ndebug dst b fuel 0 σ σ' h

/-! ## The counter of `Double` -/

theorem Double.count_increment_ok (c : Int) (h : c < INT_MAX) :
    Double.count_increment c = .ok (c + 1) := by
  simp [Double.count_increment, h]

/-- Resolving an expression over `Double` gives the value of the expression and raises
`Double::count` by the number of its nodes, as long as the counter does not overflow. -/
theorem Rep.indexD_eq {R : Type} [Add R] [Mul R] (σ : Store (Double R))
    (r : Rep (Double R)) (i : Nat) :
    ∀ c : Int, c + r.ops ≤ INT_MAX →
      r.indexD σ i c
        = match r.index σ i with
          | .ok x => .ok (x, c + r.ops)
          | .error e => .error e := by
  induction r with
  | vector buf =>
    intro c _
    cases h : (σ buf)[i]? <;> simp [Rep.indexD, Rep.index, Rep.ops, h]
  | scalar sc =>
    intro c _
    cases h : sc.index σ i <;> simp [Rep.indexD, Rep.index, Rep.ops, h]
  | addV op1 op2 ih1 ih2 =>
    intro c hc
    simp only [Rep.ops, Nat.cast_add, Nat.cast_one] at hc
    rw [Rep.indexD, ih1 c (by omega)]
    cases h1 : op1.index σ i with
    | error e => simp [Rep.index, h1, bind, Except.bind]
    | ok x =>
      simp only []
      rw [ih2 (c + op1.ops) (by omega)]
      cases h2 : op2.index σ i with
      | error e => simp [Rep.index, h1, h2, bind, Except.bind]
      | ok y =>
        simp only [Rep.index, h1, h2, bind, Except.bind, pure, Except.pure,
          Double.operator_plus, Double.ofDouble, Rep.ops, Nat.cast_add, Nat.cast_one,
          Double.count_increment_ok (c + op1.ops + op2.ops) (by omega)]
        rw [show c + (↑op1.ops + ↑op2.ops + 1) = c + ↑op1.ops + ↑op2.ops + 1 by ring]
        rfl
  | multV op1 op2 ih1 ih2 =>
    intro c hc
    simp only [Rep.ops, Nat.cast_add, Nat.cast_one] at hc
    rw [Rep.indexD, ih1 c (by omega)]
    cases h1 : op1.index σ i with
    | error e => simp [Rep.index, h1, bind, Except.bind]
    | ok x =>
      simp only []
      rw [ih2 (c + op1.ops) (by omega)]
      cases h2 : op2.index σ i with
      | error e => simp [Rep.index, h1, h2, bind, Except.bind]
      | ok y =>
        simp only [Rep.index, h1, h2, bind, Except.bind, pure, Except.pure,
          Double.operator_mul, Double.ofDouble, Rep.ops, Nat.cast_add, Nat.cast_one,
          Double.count_increment_ok (c + op1.ops + op2.ops) (by omega)]
        rw [show c + (↑op1.ops + ↑op2.ops + 1) = c + ↑op1.ops + ↑op2.ops + 1 by ring]
        rfl

theorem Vec.indexD_eq_index {R : Type} [Add R] [Mul R] (ndebug : Bool) (σ : Store (Double R))
    (v : Vec (Double R)) (i : Nat) (c : Int) (hc : c + v.expr_rep.ops ≤ INT_MAX) :
    v.indexD ndebug σ i c
      = match v.index ndebug σ i with
        | .ok x => .ok (x, c + v.expr_rep.ops)
        | .error e => .error e := by
  rw [Vec.indexD, Vec.index]
  cases h : assert ndebug .outOfRange (do
      let n ← v.size ndebug σ
      pure (decide (i < n))) with
  | error e => simp [bind, Except.bind]
  | ok u =>
    simp only [bind, Except.bind]
    exact Rep.indexD_eq σ v.expr_rep i c hc

theorem vectorWrite_length {T : Type} (σ σ' : Store T) (buf i : Nat) (x : T)
    (h : vectorWrite σ buf i x = some σ') : ∀ r, (σ' r).length = (σ r).length := by
  intro r
  unfold vectorWrite at h
  split at h
  · cases h
    by_cases hr : r = buf
    · subst hr; simp
    · rw [Function.update_noteq hr]
  · cases h

/-- The loop of `operator=` over `Double` follows the loop over the values: when that
returns, so does this one, with the same store, and `Double::count` has risen, for each of
the `k` remaining indices, by the number of nodes of the source plus one (the assignment),
as long as the counter does not overflow. -/
theorem assignLoopD_of_returned {R : Type} [Add R] [Mul R] (ndebug : Bool) (dst : Nat)
    (b : Vec (Double R)) (n : Nat) :
    ∀ (fuel i k : Nat) (σ σ' : Store (Double R)) (c : Int),
      assignLoop ndebug dst b fuel i σ = .returned σ' → b.size ndebug σ = .ok n →
      i + k = n → c + k * ((b.expr_rep.ops : Int) + 1) ≤ INT_MAX →
      assignLoopD ndebug dst b fuel i σ c
        = .returned σ' (c + k * ((b.expr_rep.ops : Int) + 1)) := by
  intro fuel
  induction fuel with
  | zero => intro i k σ σ' c h; simp [assignLoop] at h
  | succ fuel ih =>
    intro i k σ σ' c h hsz hik hc
    rw [assignLoop] at h
    rw [assignLoopD]
    simp only [hsz] at h ⊢
    by_cases hi : i < n
    · obtain ⟨k, rfl⟩ : ∃ k', k = k' + 1 := ⟨k - 1, by omega⟩
      have hk : ((k + 1 : Nat) : Int) * ((b.expr_rep.ops : Int) + 1)
          = (k : Int) * ((b.expr_rep.ops : Int) + 1) + ((b.expr_rep.ops : Int) + 1) := by
        push_cast; ring
      have hpos : 0 ≤ (k : Int) * ((b.expr_rep.ops : Int) + 1) := by positivity
      rw [hk] at hc ⊢
      simp only [hi, if_true] at h ⊢
      rw [Vec.indexD_eq_index ndebug σ b i c (by linarith)]
      cases hread : b.index ndebug σ i with
      | error f => simp [hread] at h
      | ok x =>
        simp only [hread] at h ⊢
        have hassign : Double.operator_assign x (c + b.expr_rep.ops)
            = .ok (x, c + b.expr_rep.ops + 1) := by
          simp [Double.operator_assign, bind, Except.bind, pure, Except.pure,
            Double.count_increment_ok (c + b.expr_rep.ops) (by linarith)]
        simp only [hassign]
        cases hw : vectorWrite σ dst i x with
        | none => simp [hw] at h
        | some σ₁ =>
          simp only [hw] at h ⊢
          have hsz₁ : b.size ndebug σ₁ = .ok n := by
            rw [← hsz]
            exact Rep.size_congr ndebug σ σ₁ (vectorWrite_length σ σ₁ dst i x hw) b.expr_rep
          rw [ih (i + 1) k σ₁ σ' (c + b.expr_rep.ops + 1) h hsz₁ (by omega) (by linarith)]
          congr 1
          ring
    · have hk0 : k = 0 := by omega
      subst hk0
      simp only [hi, if_false] at h ⊢
      cases h
      simp

/-- `operator=` over `Double` follows `operator=` over the values: when that returns, so
does this one, with the same store, and `Double::count` has risen by the size of the source
times the number of its nodes plus one. -/
theorem Vec.assignD_of_returned {R : Type} [Add R] [Mul R] (ndebug : Bool) (fuel : Nat)
    (σ σ' : Store (Double R)) (dst : Nat) (b : Vec (Double R)) (n : Nat) (c : Int)
    (h : Vec.assign ndebug fuel σ dst b = .returned σ') (hsz : b.size ndebug σ = .ok n)
    (hc : c + n * ((b.expr_rep.ops : Int) + 1) ≤ INT_MAX) :
    Vec.assignD ndebug fuel σ dst b c
      = .returned σ' (c + n * ((b.expr_rep.ops : Int) + 1)) := by
  rw [Vec.assign] at h
  rw [Vec.assignD]
  split at h
  · cases h
  · exact assignLoopD_of_returned ndebug dst b n fuel 0 n σ σ' c h hsz (by omega) hc

/-- The assignment of `main` over `Double`: for buffers of length `N` it returns and has
raised `Double::count` by `5 * N`. -/
theorem main_expression_assignD {R : Type} [Add R] [Mul R] (ndebug : Bool) (fuel : Nat)
    (σ : Store (Double R)) (a b : Double R) (v1 v2 v3 N : Nat) (c c' : Int)
    (h1 : (σ v1).length = N) (h2 : (σ v2).length = N) (h3 : (σ v3).length = N)
    (hfuel : N < fuel) (hc' : c' = c + 5 * N) (hc : c' ≤ INT_MAX) :
    ∃ σ', Vec.assignD ndebug fuel σ v3 (main_expression a b v1 v2) c = .returned σ' c' := by
  have hget : ∀ (v : Nat), (σ v).length = N → ∀ i, i < N → ∃ x, (σ v)[i]? = some x :=
    fun v hv i hi => ⟨(σ v)[i], List.getElem?_eq_getElem (by omega)⟩
  have hsize := main_expression_size ndebug σ a b v1 v2 N h1 h2
  obtain ⟨σ', hret, -⟩ :=
    Vec.assign_returns ndebug fuel σ v3 (main_expression a b v1 v2) N hsize h3 rfl
      (fun j hj => by
        obtain ⟨x, hx⟩ := hget v1 h1 j hj
        obtain ⟨y, hy⟩ := hget v2 h2 j hj
        exact ⟨_, main_expression_index σ a b v1 v2 j x y hx hy⟩) hfuel
  have hops : ((main_expression a b v1 v2).expr_rep.ops : Int) + 1 = 5 := rfl
  have key := Vec.assignD_of_returned ndebug fuel σ σ' v3 (main_expression a b v1 v2) N c
    hret hsize (by rw [hops]; linarith)
  rw [hops] at key
  exact ⟨σ', by rw [key, hc']; congr 1; ring⟩

theorem uniformStore_length {T : Type} (n : Nat) (x : T) (k : Nat) :
    (uniformStore n x k).length = n :=
  List.length_replicate n x

/-! ## The claims -/

/-- C1: for every length `N`, owning buffers `v1`, `v2`, `v3` of length `N` (`v3` another
buffer than `v1` and `v2`) and scalars `a`, `b` of an element type whose multiplication
commutes, `v3 = a*v1*b + v2*v2` returns, leaves `v1` and `v2` as they were, and every index
`i < N` then satisfies `v3[i] == (a*v1[i])*b + v2[i]*v2[i]`, the value of the hand-written
loop of `main`.  It holds in both builds.  (The expression itself resolves to
`b*(a*v1[i]) + v2[i]*v2[i]`, see `main_expression_index`.) -/
theorem C1_main_expression_elementwise {T : Type} [Add T] [Mul T]
    (hcomm : ∀ x y : T, x * y = y * x) (ndebug : Bool) (fuel : Nat) (σ : Store T)
    (a b : T) (v1 v2 v3 N : Nat)
    (h1 : (σ v1).length = N) (h2 : (σ v2).length = N) (h3 : (σ v3).length = N)
    (h31 : v3 ≠ v1) (h32 : v3 ≠ v2) (hfuel : N < fuel) :
    ∃ σ', Vec.assign ndebug fuel σ v3 (main_expression a b v1 v2) = .returned σ'
      ∧ σ' v1 = σ v1 ∧ σ' v2 = σ v2
      ∧ ∀ i, i < N → ∃ x y, Vec.index ndebug σ' ⟨.vector v1⟩ i = .ok x
          ∧ Vec.index ndebug σ' ⟨.vector v2⟩ i = .ok y
          ∧ Vec.index ndebug σ' ⟨.vector v3⟩ i = .ok (a * x * b + y * y) := by
  have hget : ∀ (v : Nat), (σ v).length = N → ∀ i, i < N → ∃ x, (σ v)[i]? = some x :=
    fun v hv i hi => ⟨(σ v)[i], List.getElem?_eq_getElem (by omega)⟩
  obtain ⟨σ', hret, hoff, -, hval⟩ :=
    Vec.assign_returns ndebug fuel σ v3 (main_expression a b v1 v2) N
      (main_expression_size ndebug σ a b v1 v2 N h1 h2) h3 rfl
      (fun j hj => by
        obtain ⟨x, hx⟩ := hget v1 h1 j hj
        obtain ⟨y, hy⟩ := hget v2 h2 j hj
        exact ⟨_, main_expression_index σ a b v1 v2 j x y hx hy⟩) hfuel
  refine ⟨σ', hret, hoff v1 (Ne.symm h31), hoff v2 (Ne.symm h32), fun i hi => ?_⟩
  obtain ⟨x, hx⟩ := hget v1 h1 i hi
  obtain ⟨y, hy⟩ := hget v2 h2 i hi
  refine ⟨x, y, ?_, ?_, ?_⟩
  · exact Vec.index_vector ndebug σ' v1 i x (by rw [hoff v1 (Ne.symm h31)]; exact hx)
  · exact Vec.index_vector ndebug σ' v2 i y (by rw [hoff v2 (Ne.symm h32)]; exact hy)
  · refine Vec.index_vector ndebug σ' v3 i _ ?_
    rw [hval i hi _ (main_expression_index σ a b v1 v2 i x y hx hy), hcomm b (a * x)]

/-- Witness of C1: the integers, `a = 3`, `b = 5`, `v1 = [1, 1]`, `v2 = [2, 2]`, in the build
of the source. -/
theorem C1_main_expression_elementwise_witness :
    ∃ σ', Vec.assign NDEBUG 3 (storeOf [[1, 1], [2, 2], [0, 0]]) 2
        (main_expression (3 : Int) 5 0 1) = .returned σ'
      ∧ σ' 0 = storeOf [[1, 1], [2, 2], [0, 0]] 0 ∧ σ' 1 = storeOf [[1, 1], [2, 2], [0, 0]] 1
      ∧ ∀ i, i < 2 → ∃ x y, Vec.index NDEBUG σ' ⟨.vector 0⟩ i = .ok x
          ∧ Vec.index NDEBUG σ' ⟨.vector 1⟩ i = .ok y
          ∧ Vec.index NDEBUG σ' ⟨.vector 2⟩ i = .ok (3 * x * 5 + y * y) :=
  C1_main_expression_elementwise (fun x y => Int.mul_comm x y) NDEBUG 3
    (storeOf [[1, 1], [2, 2], [0, 0]]) 3 5 0 1 2 2 rfl rfl rfl (by decide) (by decide)
    (by decide)

/-- C2: for every owning destination `dst` and every source facade `src` that does not
reference `dst`, with `dst.size() == src.size() == N` and `src` resolving at every index
below `N`: `dst = src` returns, and afterwards `dst[i] == src[i]` for every `i < N`, where
`src[i]` is the value the source resolves to (the same before and after the assignment).
It holds in both builds. -/
theorem C2_assign_postcondition {T : Type} [Add T] [Mul T] (ndebug : Bool) (fuel : Nat)
    (σ : Store T) (dst : Nat) (src : Vec T) (N : Nat)
    (hsize : src.size ndebug σ = .ok N)
    (hdst : Vec.size ndebug σ ⟨.vector dst⟩ = .ok N)
    (href : src.expr_rep.references dst = false)
    (hres : ∀ i, i < N → ∃ x, src.index ndebug σ i = .ok x) (hfuel : N < fuel) :
    ∃ σ', Vec.assign ndebug fuel σ dst src = .returned σ'
      ∧ Vec.size ndebug σ' ⟨.vector dst⟩ = .ok N
      ∧ ∀ i, i < N → ∃ x, src.index ndebug σ i = .ok x ∧ src.index ndebug σ' i = .ok x
          ∧ Vec.index ndebug σ' ⟨.vector dst⟩ i = .ok x := by
  have hlen : (σ dst).length = N := by
    simpa [Vec.size, Rep.size] using hdst
  have hres' : ∀ j, j < N → ∃ x, src.expr_rep.index σ j = .ok x := fun j hj => by
    obtain ⟨x, hx⟩ := hres j hj
    exact ⟨x, by rw [← Vec.index_of_lt ndebug σ src N j hsize hj]; exact hx⟩
  obtain ⟨σ', hret, hoff, hlen', hval⟩ :=
    Vec.assign_returns ndebug fuel σ dst src N hsize hlen
      (Rep.scalarInto_of_references dst _ href) hres' hfuel
  refine ⟨σ', hret, by simp [Vec.size, Rep.size, hlen'], fun i hi => ?_⟩
  obtain ⟨x, hx⟩ := hres' i hi
  have hsize' : src.size ndebug σ' = .ok N := by
    rw [← hsize]
    refine Rep.size_congr ndebug σ σ' (fun r => ?_) src.expr_rep
    by_cases hr : r = dst
    · subst hr; rw [hlen', hlen]
    · rw [hoff r hr]
  refine ⟨x, ?_, ?_, ?_⟩
  · rw [Vec.index_of_lt ndebug σ src N i hsize hi]; exact hx
  · rw [Vec.index_of_lt ndebug σ' src N i hsize' hi,
      Rep.index_congr_off σ σ' dst i hoff src.expr_rep href]
    exact hx
  · exact Vec.index_vector ndebug σ' dst i x (hval i hi x hx)

/-- Witness of C2: `dst = 7 * v0 + v1` over the integers with `v0 = [1, 2]`, `v1 = [3, 4]`,
in the build of the source. -/
theorem C2_assign_postcondition_witness :
    ∃ σ', Vec.assign NDEBUG 3 (storeOf [[1, 2], [3, 4], [0, 0]]) 2
        (operator_plus (operator_mul_scalar_vec (.obj (7 : Int)) ⟨.vector 0⟩) ⟨.vector 1⟩)
          = .returned σ'
      ∧ Vec.size NDEBUG σ' ⟨.vector 2⟩ = .ok 2
      ∧ ∀ i, i < 2 → ∃ x,
          (operator_plus (operator_mul_scalar_vec (.obj (7 : Int)) ⟨.vector 0⟩)
            ⟨.vector 1⟩).index NDEBUG (storeOf [[1, 2], [3, 4], [0, 0]]) i = .ok x
          ∧ (operator_plus (operator_mul_scalar_vec (.obj (7 : Int)) ⟨.vector 0⟩)
            ⟨.vector 1⟩).index NDEBUG σ' i = .ok x
          ∧ Vec.index NDEBUG σ' ⟨.vector 2⟩ i = .ok x :=
  C2_assign_postcondition NDEBUG 3 (storeOf [[1, 2], [3, 4], [0, 0]]) 2
    (operator_plus (operator_mul_scalar_vec (.obj (7 : Int)) ⟨.vector 0⟩) ⟨.vector 1⟩) 2
    rfl rfl rfl
    (fun i hi => by
      obtain rfl | rfl : i = 0 ∨ i = 1 := by omega
      · exact ⟨10, rfl⟩
      · exact ⟨18, rfl⟩)
    (by decide)

/-- C3: indexing a binary node combines its operands' elements.  For all representations
`op1`, `op2` (owning storage, scalar views or nested nodes) that resolve at index `i` to `x`
and `y`, the additive node resolves to `x + y` and the multiplicative node to `x * y`, with
`op1`'s element as the left operand. -/
theorem C3_node_index {T : Type} [Add T] [Mul T] (σ : Store T) (op1 op2 : Rep T) (i : Nat)
    (x y : T) (h1 : op1.index σ i = .ok x) (h2 : op2.index σ i = .ok y) :
    (Rep.addV op1 op2).index σ i = .ok (x + y)
      ∧ (Rep.multV op1 op2).index σ i = .ok (x * y) := by
  constructor <;> simp [Rep.index, h1, h2, bind, Except.bind, pure, Except.pure]

/-- Witness of C3: `op1` an owning buffer, `op2` the nested node `5 * v1`, at index 1. -/
theorem C3_node_index_witness :
    (Rep.addV (.vector 0) (.multV (.scalar ⟨.obj (5 : Int)⟩) (.vector 1))).index
        (storeOf [[1, 2], [3, 4]]) 1 = .ok (2 + 20)
      ∧ (Rep.multV (.vector 0) (.multV (.scalar ⟨.obj (5 : Int)⟩) (.vector 1))).index
        (storeOf [[1, 2], [3, 4]]) 1 = .ok (2 * 20) :=
  C3_node_index (storeOf [[1, 2], [3, 4]]) (.vector 0)
    (.multV (.scalar ⟨.obj (5 : Int)⟩) (.vector 1)) 1 2 20 rfl rfl

/-- Counterexample to C4 as stated: in the build of the source (`NDEBUG` defined) the sum of
a buffer of length 2 and a buffer of length 3 has a `size()` that succeeds, with result 2,
although both operand sizes are non-zero and differ. -/
theorem C4_counterexample :
    (Rep.addV (.vector 0) (.vector 1)).size NDEBUG (storeOf [[1, 2], [1, 2, 3]]) = .ok 2
      ∧ (Rep.vector 0).size NDEBUG (storeOf [[1, 2], [1, 2, 3]]) = .ok 2
      ∧ (Rep.vector 1).size NDEBUG (storeOf [[1, 2], [1, 2, 3]]) = .ok 3 :=
  ⟨rfl, rfl, rfl⟩

/-- C4, amended: for operands whose `size()` are `a` and `b`, the additive and the
multiplicative node's `size()` is `a` if `a` is non-zero and `b` otherwise (hence 0 when both
are zero); except that in a build with assertions enabled (`NDEBUG` not defined) `size()`
fails with the shape-mismatch failure when both sizes are non-zero and differ.  In the build
of the source (`NDEBUG` defined) that check is compiled out. -/
theorem C4_node_size {T : Type} (ndebug : Bool) (σ : Store T) (op1 op2 : Rep T) (a b : Nat)
    (h1 : op1.size ndebug σ = .ok a) (h2 : op2.size ndebug σ = .ok b) :
    (Rep.addV op1 op2).size ndebug σ
        = (if ndebug = false ∧ a ≠ 0 ∧ b ≠ 0 ∧ a ≠ b then .error .shapeMismatch
           else .ok (if a ≠ 0 then a else b))
      ∧ (Rep.multV op1 op2).size ndebug σ
        = (if ndebug = false ∧ a ≠ 0 ∧ b ≠ 0 ∧ a ≠ b then .error .shapeMismatch
           else .ok (if a ≠ 0 then a else b)) := by
  constructor <;> rw [Rep.size, h1, h2, nodeSize_ok_ok]

/-- Witness of C4 (amended): the product of the scalar view of 5 and a buffer of length 2,
with assertions enabled. -/
theorem C4_node_size_witness :
    (Rep.addV (.scalar ⟨.obj (5 : Int)⟩) (.vector 0)).size false (storeOf [[1, 2]])
        = (if false = false ∧ 0 ≠ 0 ∧ 2 ≠ 0 ∧ 0 ≠ 2 then .error .shapeMismatch
           else .ok (if 0 ≠ 0 then 0 else 2))
      ∧ (Rep.multV (.scalar ⟨.obj (5 : Int)⟩) (.vector 0)).size false (storeOf [[1, 2]])
        = (if false = false ∧ 0 ≠ 0 ∧ 2 ≠ 0 ∧ 0 ≠ 2 then .error .shapeMismatch
           else .ok (if 0 ≠ 0 then 0 else 2)) :=
  C4_node_size false (storeOf [[1, 2]]) (.scalar ⟨.obj (5 : Int)⟩) (.vector 0) 0 2 rfl rfl

/-- C5: broadcast.  For every scalar `k` and every sequence `v` whose `size()` is `N`, the
expression `k*v` has `size() == N`, and at every index `i < N` where `v[i]` is `x` it yields
`k * x`: the scalar contributes the same value at every index.  It holds in both builds. -/
theorem C5_broadcast {T : Type} [Add T] [Mul T] (ndebug : Bool) (σ : Store T) (k : T)
    (v : Vec T) (N : Nat) (hsize : v.size ndebug σ = .ok N) :
    (operator_mul_scalar_vec (.obj k) v).size ndebug σ = .ok N
      ∧ ∀ i x, i < N → v.index ndebug σ i = .ok x →
          (operator_mul_scalar_vec (.obj k) v).index ndebug σ i = .ok (k * x) := by
  have hsz : (operator_mul_scalar_vec (.obj k) v).size ndebug σ = .ok N := by
    have h0 : (Rep.scalar ⟨.obj k⟩ : Rep T).size ndebug σ = .ok 0 := rfl
    rw [operator_mul_scalar_vec, Vec.size, Rep.size, h0,
      show v.expr_rep.size ndebug σ = .ok N from hsize, nodeSize_ok_ok]
    simp
  refine ⟨hsz, fun i x hi hx => ?_⟩
  rw [Vec.index_of_lt ndebug σ v N i hsize hi] at hx
  rw [Vec.index_of_lt ndebug σ _ N i hsz hi]
  simp [operator_mul_scalar_vec, Rep.index, Scalar.index, Ref.read, hx, bind, Except.bind,
    pure, Except.pure]

/-- Witness of C5: `7 * v` for `v = [1, 2, 3]` over the integers, in the build of the
source. -/
theorem C5_broadcast_witness :
    (operator_mul_scalar_vec (.obj (7 : Int)) ⟨.vector 0⟩).size NDEBUG (storeOf [[1, 2, 3]])
        = .ok 3
      ∧ ∀ i x, i < 3 → Vec.index NDEBUG (storeOf [[1, 2, 3]]) ⟨.vector 0⟩ i = .ok x →
          (operator_mul_scalar_vec (.obj (7 : Int)) ⟨.vector 0⟩).index NDEBUG
            (storeOf [[1, 2, 3]]) i = .ok (7 * x) :=
  C5_broadcast NDEBUG (storeOf [[1, 2, 3]]) 7 ⟨.vector 0⟩ 3 rfl

/-- C6: commutativity of scalar multiply.  For every scalar `k`, sequence expression `va`
and destination `vb`, `va*k` builds exactly the expression `k*va`, so `vb = k*va` and
`vb = va*k` leave control and every buffer in the same way, in every build and store. -/
theorem C6_scalar_multiply_commutes {T : Type} [Add T] [Mul T] (k : Ref T) (va : Vec T) :
    operator_mul_vec_scalar va k = operator_mul_scalar_vec k va
      ∧ ∀ (ndebug : Bool) (fuel : Nat) (σ : Store T) (vb : Nat),
          Vec.assign ndebug fuel σ vb (operator_mul_vec_scalar va k)
            = Vec.assign ndebug fuel σ vb (operator_mul_scalar_vec k va) :=
  ⟨rfl, fun _ _ _ _ => rfl⟩

/-- Counterexample to C7 as stated: in the build of the source (`NDEBUG` defined), for
buffers `v0` of length 2 and `v1` of length 3, `size()` of the product `v0*v1` succeeds with
2, assigning the sum `v0 + v1` into a buffer of length 2 returns, and assigning `v0` into a
buffer of length 3 returns: none of them fails. -/
theorem C7_counterexample :
    (operator_mul (⟨.vector 0⟩ : Vec Nat) ⟨.vector 1⟩).size NDEBUG
        (storeOf [[1, 2], [1, 2, 3]]) = .ok 2
      ∧ (Vec.assign NDEBUG 3 (storeOf [[1, 2], [1, 2, 3], [0, 0]]) 2
          (operator_plus ⟨.vector 0⟩ ⟨.vector 1⟩)).buffer? 2 = some [2, 4]
      ∧ (Vec.assign NDEBUG 3 (storeOf [[1, 2], [1, 2, 3], [0, 0, 0]]) 2
          ⟨.vector 0⟩).buffer? 2 = some [1, 2, 0] :=
  ⟨rfl, by decide, by decide⟩

/-- C7, amended: in a build with assertions enabled (`NDEBUG` not defined), for every pair
of sequences `a`, `b` whose sizes are non-zero and differ, `size()` of their sum and of their
product fails with the shape-mismatch failure, and so does assigning from either, leaving
every buffer as it was; and assigning `a` into a destination whose length differs from
`a.size()` fails with the shape-mismatch failure, leaving every buffer as it was.  In the
build of the source (`NDEBUG` defined before `<cassert>`) the checks are compiled out:
`size()` of the sum and of the product is `a.size()`, without failure. -/
theorem C7_shape_mismatch {T : Type} [Add T] [Mul T] (σ : Store T) (a b : Vec T)
    (n1 n2 : Nat) (ha : a.size false σ = .ok n1) (hb : b.size false σ = .ok n2)
    (h1 : n1 ≠ 0) (h2 : n2 ≠ 0) (hne : n1 ≠ n2) :
    (operator_plus a b).size false σ = .error .shapeMismatch
      ∧ (operator_mul a b).size false σ = .error .shapeMismatch
      ∧ (∀ fuel dst, Vec.assign false fuel σ dst (operator_plus a b) = .failed .shapeMismatch σ
          ∧ Vec.assign false fuel σ dst (operator_mul a b) = .failed .shapeMismatch σ)
      ∧ (∀ fuel dst, (σ dst).length ≠ n1 →
          Vec.assign false fuel σ dst a = .failed .shapeMismatch σ)
      ∧ (operator_plus a b).size NDEBUG σ = .ok n1
      ∧ (operator_mul a b).size NDEBUG σ = .ok n1 := by
  have hplus : (operator_plus a b).size false σ = .error .shapeMismatch := by
    rw [operator_plus, Vec.size, Rep.size, show a.expr_rep.size false σ = .ok n1 from ha,
      show b.expr_rep.size false σ = .ok n2 from hb, nodeSize_ok_ok]
    simp [h1, h2, hne]
  have hmul : (operator_mul a b).size false σ = .error .shapeMismatch := by
    rw [operator_mul, Vec.size, Rep.size, show a.expr_rep.size false σ = .ok n1 from ha,
      show b.expr_rep.size false σ = .ok n2 from hb, nodeSize_ok_ok]
    simp [h1, h2, hne]
  have ha' : a.expr_rep.size true σ = .ok n1 := Rep.size_ndebug_of_size false σ _ n1 ha
  have hb' : b.expr_rep.size true σ = .ok n2 := Rep.size_ndebug_of_size false σ _ n2 hb
  refine ⟨hplus, hmul, fun fuel dst => ⟨?_, ?_⟩, fun fuel dst hd => ?_, ?_, ?_⟩
  · exact Vec.assign_checked_size_error fuel σ dst _ _ hplus
  · exact Vec.assign_checked_size_error fuel σ dst _ _ hmul
  · exact Vec.assign_checked_size_ne fuel σ dst a n1 ha hd
  · rw [NDEBUG, operator_plus, Vec.size, Rep.size, ha', hb', nodeSize_ok_ok]
    simp [h1]
  · rw [NDEBUG, operator_mul, Vec.size, Rep.size, ha', hb', nodeSize_ok_ok]
    simp [h1]

/-- Witness of C7 (amended): buffers of lengths 2 and 3. -/
theorem C7_shape_mismatch_witness :
    (operator_plus (⟨.vector 0⟩ : Vec Int) ⟨.vector 1⟩).size false
        (storeOf [[1, 2], [1, 2, 3]]) = .error .shapeMismatch
      ∧ (operator_mul (⟨.vector 0⟩ : Vec Int) ⟨.vector 1⟩).size false
        (storeOf [[1, 2], [1, 2, 3]]) = .error .shapeMismatch
      ∧ (∀ fuel dst, Vec.assign false fuel (storeOf [[1, 2], [1, 2, 3]]) dst
            (operator_plus (⟨.vector 0⟩ : Vec Int) ⟨.vector 1⟩)
              = .failed .shapeMismatch (storeOf [[1, 2], [1, 2, 3]])
          ∧ Vec.assign false fuel (storeOf [[1, 2], [1, 2, 3]]) dst
            (operator_mul (⟨.vector 0⟩ : Vec Int) ⟨.vector 1⟩)
              = .failed .shapeMismatch (storeOf [[1, 2], [1, 2, 3]]))
      ∧ (∀ fuel dst, (storeOf [[(1 : Int), 2], [1, 2, 3]] dst).length ≠ 2 →
          Vec.assign false fuel (storeOf [[1, 2], [1, 2, 3]]) dst (⟨.vector 0⟩ : Vec Int)
            = .failed .shapeMismatch (storeOf [[1, 2], [1, 2, 3]]))
      ∧ (operator_plus (⟨.vector 0⟩ : Vec Int) ⟨.vector 1⟩).size NDEBUG
        (storeOf [[1, 2], [1, 2, 3]]) = .ok 2
      ∧ (operator_mul (⟨.vector 0⟩ : Vec Int) ⟨.vector 1⟩).size NDEBUG
        (storeOf [[1, 2], [1, 2, 3]]) = .ok 2 :=
  C7_shape_mismatch (storeOf [[1, 2], [1, 2, 3]]) ⟨.vector 0⟩ ⟨.vector 1⟩ 2 3 rfl rfl
    (by decide) (by decide) (by decide)

/-- Counterexample to C8 as stated: in the build of the source (`NDEBUG` defined), assigning
the buffer `[7, 8]` into the destination `[0, 0, 0]` returns with the destination
`[7, 8, 0]`: the shorter source overwrote only a prefix of the destination. -/
theorem C8_counterexample :
    (Vec.assign NDEBUG 3 (storeOf [[7, 8], [0, 0, 0]]) 1 (⟨.vector 0⟩ : Vec Nat)).buffer? 1
      = some [7, 8, 0] := by
  decide

/-- C8, amended: in a build with assertions enabled (`NDEBUG` not defined) `operator=` is
all-or-nothing: with enough fuel it either stops at a failure with every buffer as it was, or
it returns, and then source and destination have the same size `N`, no buffer but the
destination changed, and (when no scalar of the source refers to an element of the
destination) every `dst[i]`, `i < N`, holds the value the source resolved to.  In the build of
the source (`NDEBUG` defined) no size is checked: a source of size `N` not larger than the
destination, resolving at each index below `N`, overwrites exactly `dst[0..N)` and leaves
the rest of the destination as it was. -/
theorem C8_assign_all_or_nothing {T : Type} [Add T] [Mul T] (fuel : Nat) (σ : Store T)
    (dst : Nat) (b : Vec T) (hfuel : (σ dst).length < fuel) :
    ((∃ f, Vec.assign false fuel σ dst b = .failed f σ)
      ∨ (∃ σ' N, Vec.assign false fuel σ dst b = .returned σ'
          ∧ b.size false σ = .ok N ∧ (σ dst).length = N ∧ (σ' dst).length = N
          ∧ (∀ r, r ≠ dst → σ' r = σ r)
          ∧ (b.expr_rep.scalarInto dst = false →
              ∀ i, i < N → ∃ x, b.expr_rep.index σ i = .ok x ∧ (σ' dst)[i]? = some x)))
    ∧ (∀ N, b.size NDEBUG σ = .ok N → N ≤ (σ dst).length →
        b.expr_rep.scalarInto dst = false →
        (∀ j, j < N → ∃ x, b.expr_rep.index σ j = .ok x) →
        ∃ σ', Vec.assign NDEBUG fuel σ dst b = .returned σ'
          ∧ (σ' dst).length = (σ dst).length
          ∧ (∀ j, j < N → ∃ x, b.expr_rep.index σ j = .ok x ∧ (σ' dst)[j]? = some x)
          ∧ (∀ l, N ≤ l → (σ' dst)[l]? = (σ dst)[l]?)) := by
  constructor
  · cases hsz : b.size false σ with
    | error e =>
      left
      exact ⟨e, Vec.assign_checked_size_error fuel σ dst b e hsz⟩
    | ok N =>
      by_cases hN : (σ dst).length = N
      · have hassert : Vec.assign false fuel σ dst b = assignLoop false dst b fuel 0 σ :=
          Vec.assign_checked_size_eq fuel σ dst b N hsz hN
        have hcases : (∀ σ' : Store T, (∀ r, (σ' r).length = (σ r).length) →
              ∀ j, j < N → ∃ x, b.expr_rep.index σ' j = .ok x)
            ∨ ∃ f, 0 < N ∧ b.expr_rep.index σ 0 = .error f := by
          by_cases h0 : N = 0
          · left
            intro σ' _ j hj
            omega
          · cases h : b.expr_rep.index σ 0 with
            | error f => exact Or.inr ⟨f, by omega, rfl⟩
            | ok x =>
              left
              intro σ' hlen j hj
              exact Rep.index_defined_uniform σ σ' hlen b.expr_rep N 0 j hsz
                (Or.inr ⟨by omega, hj⟩) ⟨x, h⟩
        rcases hcases with hrob | ⟨f, hpos, hf⟩
        · right
          by_cases hs : b.expr_rep.scalarInto dst = false
          · obtain ⟨σ', hret, hoff, hlen, hval⟩ :=
              Vec.assign_returns false fuel σ dst b N hsz hN hs
                (hrob σ (fun _ => rfl)) (by omega)
            refine ⟨σ', N, hret, rfl, hN, hlen, hoff, fun _ i hi => ?_⟩
            obtain ⟨x, hx⟩ := hrob σ (fun _ => rfl) i hi
            exact ⟨x, hx, hval i hi x hx⟩
          · obtain ⟨σ', hret, hoff, hlen⟩ :=
              assignLoop_never_fails false dst b σ N hsz (by omega) hrob N 0 fuel σ
                (by omega) (by omega) (fun _ _ => rfl) rfl
            exact ⟨σ', N, by rw [hassert]; exact hret, rfl, hN, by omega, hoff,
              fun h => absurd h hs⟩
        · left
          obtain ⟨fuel, rfl⟩ : ∃ g, fuel = g + 1 := ⟨fuel - 1, by omega⟩
          refine ⟨f, ?_⟩
          rw [hassert]
          have hread : b.index false σ 0 = .error f := by
            rw [Vec.index_of_lt false σ b N 0 hsz hpos, hf]
          simp [assignLoop, hsz, hpos, hread]
      · left
        exact ⟨.shapeMismatch, Vec.assign_checked_size_ne fuel σ dst b N hsz hN⟩
  · intro N hsz hle hs hres
    obtain ⟨σ', hret, -, hlen, hval, hrest⟩ :=
      Vec.assign_ndebug_prefix fuel σ dst b N hsz hle hs hres (by omega)
    refine ⟨σ', hret, hlen, fun j hj => ?_, hrest⟩
    obtain ⟨x, hx⟩ := hres j hj
    exact ⟨x, hx, hval j hj x hx⟩

/-- Witness of C8 (amended): assigning the buffer `[7, 8]` into a destination of length 2. -/
theorem C8_assign_all_or_nothing_witness :
    ((∃ f, Vec.assign false 3 (storeOf [[7, 8], [0, 0]]) 1 (⟨.vector 0⟩ : Vec Int)
          = .failed f (storeOf [[7, 8], [0, 0]]))
      ∨ (∃ σ' N, Vec.assign false 3 (storeOf [[7, 8], [0, 0]]) 1 (⟨.vector 0⟩ : Vec Int)
            = .returned σ'
          ∧ (⟨.vector 0⟩ : Vec Int).size false (storeOf [[7, 8], [0, 0]]) = .ok N
          ∧ (storeOf [[(7 : Int), 8], [0, 0]] 1).length = N ∧ (σ' 1).length = N
          ∧ (∀ r, r ≠ 1 → σ' r = storeOf [[7, 8], [0, 0]] r)
          ∧ ((Rep.vector 0 : Rep Int).scalarInto 1 = false →
              ∀ i, i < N → ∃ x, (Rep.vector 0 : Rep Int).index (storeOf [[7, 8], [0, 0]]) i
                = .ok x ∧ (σ' 1)[i]? = some x)))
    ∧ (∀ N, (⟨.vector 0⟩ : Vec Int).size NDEBUG (storeOf [[7, 8], [0, 0]]) = .ok N →
        N ≤ (storeOf [[(7 : Int), 8], [0, 0]] 1).length →
        (Rep.vector 0 : Rep Int).scalarInto 1 = false →
        (∀ j, j < N → ∃ x, (Rep.vector 0 : Rep Int).index (storeOf [[7, 8], [0, 0]]) j
          = .ok x) →
        ∃ σ', Vec.assign NDEBUG 3 (storeOf [[7, 8], [0, 0]]) 1 (⟨.vector 0⟩ : Vec Int)
            = .returned σ'
          ∧ (σ' 1).length = (storeOf [[(7 : Int), 8], [0, 0]] 1).length
          ∧ (∀ j, j < N → ∃ x, (Rep.vector 0 : Rep Int).index (storeOf [[7, 8], [0, 0]]) j
              = .ok x ∧ (σ' 1)[j]? = some x)
          ∧ (∀ l, N ≤ l → (σ' 1)[l]? = (storeOf [[(7 : Int), 8], [0, 0]] 1)[l]?)) :=
  C8_assign_all_or_nothing 3 (storeOf [[7, 8], [0, 0]]) 1 ⟨.vector 0⟩ (by decide)

/-- Counterexample to C9 as stated: in the build of the source (`NDEBUG` defined) the facade
over the scalar view of 7 has `size()` 0 and its `operator[]` at index 3 succeeds with 7; and
on an owning buffer of length 2 neither `operator[]` at index 5 stops at the out-of-range
assertion: both go on to access the `std::vector` outside its range. -/
theorem C9_counterexample :
    (⟨.scalar ⟨.obj 7⟩⟩ : Vec Int).size NDEBUG (storeOf []) = .ok 0
      ∧ (⟨.scalar ⟨.obj 7⟩⟩ : Vec Int).index NDEBUG (storeOf []) 3 = .ok 7
      ∧ (⟨.vector 0⟩ : Vec Int).index NDEBUG (storeOf [[1, 2]]) 5 = .error .undefinedBehaviour
      ∧ Vec.indexMut NDEBUG (storeOf [[(1 : Int), 2]]) 0 5 = .error .undefinedBehaviour :=
  ⟨rfl, rfl, rfl, rfl⟩

/-- C9, amended: in a build with assertions enabled (`NDEBUG` not defined), for every facade
`v` whose `size()` is `n` and every index `i >= n`, the read-only `v[i]` fails with the
out-of-range failure, and so does the mutable `v[i]` of an owning buffer of length at most
`i`.  In every build, for `j` below the length of an owning buffer both succeed and denote
element `j` of the storage.  In the build of the source (`NDEBUG` defined) no range is
checked: `v[i]` is `expr_rep[i]` whatever `i` is. -/
theorem C9_out_of_range {T : Type} [Add T] [Mul T] (σ : Store T) (v : Vec T) (n i : Nat)
    (hsize : v.size false σ = .ok n) (hi : n ≤ i) :
    v.index false σ i = .error .outOfRange
      ∧ (∀ buf, (σ buf).length ≤ i → Vec.indexMut false σ buf i = .error .outOfRange)
      ∧ (∀ (ndebug : Bool) (buf j : Nat) (h : j < (σ buf).length),
          Vec.index ndebug σ ⟨.vector buf⟩ j = .ok ((σ buf)[j])
            ∧ Vec.indexMut ndebug σ buf j = .ok (.elem buf j))
      ∧ v.index NDEBUG σ i = v.expr_rep.index σ i := by
  have hsize' : v.expr_rep.size false σ = .ok n := hsize
  refine ⟨?_, fun buf hb => ?_, fun ndebug buf j h => ⟨?_, ?_⟩, Vec.index_ndebug σ v i⟩
  · simp [Vec.index, assert, Vec.size, hsize', bind, Except.bind, pure, Except.pure,
      Nat.not_lt.2 hi]
  · simp [Vec.indexMut, assert, Vec.size, Rep.size, bind, Except.bind, pure, Except.pure,
      Nat.not_lt.2 hb]
  · exact Vec.index_vector ndebug σ buf j _ (List.getElem?_eq_getElem h)
  · cases ndebug <;>
      simp [Vec.indexMut, assert, Vec.size, Rep.size, bind, Except.bind, pure, Except.pure, h]

/-- Witness of C9 (amended): index 5 of the sum of two buffers of length 2. -/
theorem C9_out_of_range_witness :
    (operator_plus (⟨.vector 0⟩ : Vec Int) ⟨.vector 1⟩).index false
        (storeOf [[1, 2], [3, 4]]) 5 = .error .outOfRange
      ∧ (∀ buf, (storeOf [[(1 : Int), 2], [3, 4]] buf).length ≤ 5 →
          Vec.indexMut false (storeOf [[(1 : Int), 2], [3, 4]]) buf 5 = .error .outOfRange)
      ∧ (∀ (ndebug : Bool) (buf j : Nat)
          (h : j < (storeOf [[(1 : Int), 2], [3, 4]] buf).length),
          Vec.index ndebug (storeOf [[(1 : Int), 2], [3, 4]]) ⟨.vector buf⟩ j
              = .ok ((storeOf [[(1 : Int), 2], [3, 4]] buf)[j])
            ∧ Vec.indexMut ndebug (storeOf [[(1 : Int), 2], [3, 4]]) buf j
              = .ok (.elem buf j))
      ∧ (operator_plus (⟨.vector 0⟩ : Vec Int) ⟨.vector 1⟩).index NDEBUG
          (storeOf [[1, 2], [3, 4]]) 5
        = (operator_plus (⟨.vector 0⟩ : Vec Int) ⟨.vector 1⟩).expr_rep.index
          (storeOf [[1, 2], [3, 4]]) 5 :=
  C9_out_of_range (storeOf [[1, 2], [3, 4]]) (operator_plus ⟨.vector 0⟩ ⟨.vector 1⟩) 2 5
    rfl (by decide)

/-- C10: the scalar view.  For every wrapped value `s`, `Scalar(s).size() == 0` and
`Scalar(s)[i] == s` at every index `i`, with no bound on `i`; the same through the
representation's `size()` and `operator[]` in every build. -/
theorem C10_scalar_view {T : Type} [Add T] [Mul T] (s : T) (σ : Store T) (i : Nat) :
    (Scalar.mk (.obj s)).size = 0
      ∧ (Scalar.mk (.obj s)).index σ i = .ok s
      ∧ (∀ ndebug, (Rep.scalar ⟨.obj s⟩).size ndebug σ = .ok 0)
      ∧ (Rep.scalar ⟨.obj s⟩).index σ i = .ok s :=
  ⟨rfl, rfl, fun _ => rfl, rfl⟩

/-- C11: the concrete scenario of `main` over exact rational arithmetic.  With `v1` of five
elements all 1, `v2` of five elements all 2, `a = 1.5` and `b = 1.25`, the assignment
`v3 = a*v1*b + v2*v2` into `v3` of length 5 returns in either build, and every element of
`v3` is then 5.875 (= 1.875 + 4). -/
theorem C11_concrete_scenario (ndebug : Bool) :
    ∃ σ', Vec.assign ndebug 6
        (storeOf [List.replicate 5 (1 : ℚ), List.replicate 5 2, List.replicate 5 0]) 2
        (main_expression (1.5 : ℚ) 1.25 0 1) = .returned σ'
      ∧ σ' 2 = List.replicate 5 (5.875 : ℚ)
      ∧ (1.875 : ℚ) + 4 = 5.875 := by
  have h1 : ∀ j, j < 5 → (storeOf [List.replicate 5 (1 : ℚ), List.replicate 5 2,
      List.replicate 5 0] 0)[j]? = some 1 := fun j hj => by
    show (List.replicate 5 (1 : ℚ))[j]? = some 1
    rw [List.getElem?_replicate, if_pos hj]
  have h2 : ∀ j, j < 5 → (storeOf [List.replicate 5 (1 : ℚ), List.replicate 5 2,
      List.replicate 5 0] 1)[j]? = some 2 := fun j hj => by
    show (List.replicate 5 (2 : ℚ))[j]? = some 2
    rw [List.getElem?_replicate, if_pos hj]
  obtain ⟨σ', hret, -, hlen, hval⟩ :=
    Vec.assign_returns ndebug 6
      (storeOf [List.replicate 5 (1 : ℚ), List.replicate 5 2, List.replicate 5 0]) 2
      (main_expression (1.5 : ℚ) 1.25 0 1) 5
      (main_expression_size ndebug _ _ _ 0 1 5 rfl rfl) rfl rfl
      (fun j hj => ⟨1.25 * (1.5 * 1) + 2 * 2,
        main_expression_index _ _ _ 0 1 j 1 2 (h1 j hj) (h2 j hj)⟩)
      (by decide)
  refine ⟨σ', hret, ?_, by norm_num⟩
  apply List.ext_getElem?
  intro j
  by_cases hj : j < 5
  · rw [hval j hj (1.25 * (1.5 * 1) + 2 * 2)
      (main_expression_index _ _ _ 0 1 j 1 2 (h1 j hj) (h2 j hj)),
      List.getElem?_replicate, if_pos hj]
    norm_num
  · rw [List.getElem?_eq_none (by omega), List.getElem?_eq_none (by simp; omega)]

/-- Counterexample to C12 as stated: over the counting element type `Double`, starting from
`Double::count == 0`, assigning `a*v1*b + v2*v2` into a destination of length 5 leaves the
counter at 25, and into a destination of length 5,000,000 at 25,000,000: the increase is not
the same for the two lengths. -/
theorem C12_counterexample :
    ∃ σ₁ σ₂ : Store (Double Int),
      Vec.assignD NDEBUG 6 (uniformStore 5 ⟨1⟩) 2 (main_expression ⟨3⟩ ⟨5⟩ 0 1) 0
          = .returned σ₁ 25
        ∧ Vec.assignD NDEBUG 5000001 (uniformStore 5000000 ⟨1⟩) 2
            (main_expression ⟨3⟩ ⟨5⟩ 0 1) 0
          = .returned σ₂ 25000000 := by
  obtain ⟨σ₁, e₁⟩ := main_expression_assignD NDEBUG 6 (uniformStore 5 (⟨1⟩ : Double Int))
    ⟨3⟩ ⟨5⟩ 0 1 2 5 0 25 (uniformStore_length _ _ _) (uniformStore_length _ _ _)
    (uniformStore_length _ _ _) (by norm_num) (by norm_num) (by unfold INT_MAX; norm_num)
  obtain ⟨σ₂, e₂⟩ := main_expression_assignD NDEBUG 5000001
    (uniformStore 5000000 (⟨1⟩ : Double Int))
    ⟨3⟩ ⟨5⟩ 0 1 2 5000000 0 25000000 (uniformStore_length _ _ _) (uniformStore_length _ _ _)
    (uniformStore_length _ _ _) (by norm_num) (by norm_num) (by unfold INT_MAX; norm_num)
  exact ⟨σ₁, σ₂, e₁, e₂⟩

/-- C12, amended: over the counting element type `Double`, assigning `a*v1*b + v2*v2` into a
destination of length `N` (with `v1`, `v2` of length `N`) returns and raises `Double::count`
by exactly `5 * N`: per element, the four arithmetic results are constructed
(`Double(double)`) and `Double::operator=` runs once, and no `Double` is copied.  The increase
grows with `N`.  (The counter is an `int`; it is assumed not to overflow.) -/
theorem C12_count_increase {R : Type} [Add R] [Mul R] (ndebug : Bool) (fuel : Nat)
    (σ : Store (Double R)) (a b : Double R) (v1 v2 v3 N : Nat) (count : Int)
    (h1 : (σ v1).length = N) (h2 : (σ v2).length = N) (h3 : (σ v3).length = N)
    (hfuel : N < fuel) (hc : count + 5 * N ≤ INT_MAX) :
    ∃ σ', Vec.assignD ndebug fuel σ v3 (main_expression a b v1 v2) count
      = .returned σ' (count + 5 * N) :=
  main_expression_assignD ndebug fuel σ a b v1 v2 v3 N count (count + 5 * N) h1 h2 h3 hfuel
    rfl hc

/-- Witness of C12 (amended): buffers of length 2, the counter starting at 0, in the build of
the source. -/
theorem C12_count_increase_witness :
    ∃ σ', Vec.assignD NDEBUG 3 (uniformStore 2 (⟨1⟩ : Double Int)) 2
        (main_expression ⟨3⟩ ⟨5⟩ 0 1) 0
      = .returned σ' (0 + 5 * (2 : Nat)) :=
  C12_count_increase NDEBUG 3 (uniformStore 2 (⟨1⟩ : Double Int)) ⟨3⟩ ⟨5⟩ 0 1 2 2 0
    rfl rfl rfl (by decide) (by decide)

/-- C13: creation.  For every length `n`, the owning buffer made by `Vec(n)` has
`size() == n` and holds `n` zero elements (value-initialised elements of a numeric type);
each is readable, through the read-only and the mutable `operator[]`, at every index
`i < n`; no other buffer changes.  It holds in both builds. -/
theorem C13_create {T : Type} [Zero T] [Add T] [Mul T] (ndebug : Bool) (σ : Store T)
    (buf n : Nat) :
    (Vec.create σ buf n).1.size ndebug (Vec.create σ buf n).2 = .ok n
      ∧ (Vec.create σ buf n).2 buf = List.replicate n 0
      ∧ (∀ i, i < n →
          (Vec.create σ buf n).1.index ndebug (Vec.create σ buf n).2 i = .ok 0
            ∧ Vec.indexMut ndebug (Vec.create σ buf n).2 buf i = .ok (.elem buf i))
      ∧ ∀ r, r ≠ buf → (Vec.create σ buf n).2 r = σ r := by
  refine ⟨by simp [Vec.create, Vec.size, Rep.size], by simp [Vec.create], fun i hi => ⟨?_, ?_⟩,
    fun r hr => by simp [Vec.create, Function.update_noteq hr]⟩
  · exact Vec.index_vector ndebug _ buf i 0
      (by simp [Vec.create, List.getElem?_replicate, hi])
  · cases ndebug <;>
      simp [Vec.create, Vec.indexMut, assert, Vec.size, Rep.size, bind, Except.bind, pure,
        Except.pure, hi]

/-- C14: the size invariant of composed expressions.  A facade's `size()` is the `size()` of
its representation; and for every expression over scalars and at least one owning buffer,
all of whose owning buffers have the same length `N`, every node's size check passes (the
size is computed without failure also with assertions enabled) and `size()` is `N`, however
deeply the expression nests. -/
theorem C14_size_invariant {T : Type} (σ : Store T) (N : Nat) (v : Vec T)
    (hall : ∀ buf, buf ∈ v.expr_rep.buffers → (σ buf).length = N)
    (hne : v.expr_rep.buffers ≠ []) (ndebug : Bool) :
    v.size ndebug σ = v.expr_rep.size ndebug σ ∧ v.size ndebug σ = .ok N := by
  refine ⟨rfl, ?_⟩
  rw [Vec.size, Rep.size_of_buffers ndebug σ N v.expr_rep hall, if_neg hne]

/-- Witness of C14: `a*v0*b + v1*v1` over two buffers of length 2, with assertions
enabled. -/
theorem C14_size_invariant_witness :
    (main_expression (3 : Int) 5 0 1).size false (storeOf [[1, 1], [2, 2]])
        = (main_expression (3 : Int) 5 0 1).expr_rep.size false (storeOf [[1, 1], [2, 2]])
      ∧ (main_expression (3 : Int) 5 0 1).size false (storeOf [[1, 1], [2, 2]]) = .ok 2 :=
  C14_size_invariant (storeOf [[1, 1], [2, 2]]) 2 (main_expression (3 : Int) 5 0 1)
    (fun buf hb => by
      have : buf = 0 ∨ buf = 1 := by
        simpa [main_expression, operator_plus, operator_mul_vec_scalar,
          operator_mul_scalar_vec, operator_mul, Rep.buffers] using hb
      rcases this with rfl | rfl <;> rfl)
    (by decide) false

/-- Counterexample to C15 as stated: in the build of the source (`NDEBUG` defined),
assigning the product of the scalar views of 2 and 3 into the buffer `[0]` returns, with the
buffer as it was: nothing is written, and nothing fails. -/
theorem C15_counterexample :
    (Vec.assign NDEBUG 1 (storeOf [[0]]) 0
      (⟨.multV (.scalar ⟨.obj 2⟩) (.scalar ⟨.obj 3⟩)⟩ : Vec Int)).buffer? 0 = some [0] := by
  decide

/-- C15, amended: for every binary node whose two operands both have size 0 and every
destination of length at least 1, assigning the node's facade into the destination writes
nothing.  In a build with assertions enabled (`NDEBUG` not defined) it fails with the
shape-mismatch failure; in the build of the source (`NDEBUG` defined) the size check is
compiled out and the assignment returns, its loop running `size() = 0` times. -/
theorem C15_scalar_only_assign {T : Type} [Add T] [Mul T] (σ : Store T) (op1 op2 : Rep T)
    (dst fuel : Nat) (h1 : op1.size false σ = .ok 0) (h2 : op2.size false σ = .ok 0)
    (hN : 1 ≤ (σ dst).length) :
    Vec.assign false fuel σ dst ⟨.addV op1 op2⟩ = .failed .shapeMismatch σ
      ∧ Vec.assign false fuel σ dst ⟨.multV op1 op2⟩ = .failed .shapeMismatch σ
      ∧ Vec.assign NDEBUG (fuel + 1) σ dst ⟨.addV op1 op2⟩ = .returned σ
      ∧ Vec.assign NDEBUG (fuel + 1) σ dst ⟨.multV op1 op2⟩ = .returned σ := by
  have h1' := Rep.size_ndebug_of_size false σ op1 0 h1
  have h2' := Rep.size_ndebug_of_size false σ op2 0 h2
  refine ⟨?_, ?_, ?_, ?_⟩
  · refine Vec.assign_checked_size_ne fuel σ dst _ 0 ?_ (by omega)
    rw [Vec.size, Rep.size, h1, h2, nodeSize_ok_ok]; simp
  · refine Vec.assign_checked_size_ne fuel σ dst _ 0 ?_ (by omega)
    rw [Vec.size, Rep.size, h1, h2, nodeSize_ok_ok]; simp
  · refine Vec.assign_ndebug_size_zero fuel σ dst _ ?_
    rw [Vec.size, Rep.size, h1', h2', nodeSize_ok_ok]; simp
  · refine Vec.assign_ndebug_size_zero fuel σ dst _ ?_
    rw [Vec.size, Rep.size, h1', h2', nodeSize_ok_ok]; simp

/-- Witness of C15 (amended): the sum and the product of the scalar views of 2 and 3,
assigned into a buffer of length 1. -/
theorem C15_scalar_only_assign_witness :
    Vec.assign false 1 (storeOf [[0]]) 0
        (⟨.addV (.scalar ⟨.obj (2 : Int)⟩) (.scalar ⟨.obj 3⟩)⟩ : Vec Int)
        = .failed .shapeMismatch (storeOf [[0]])
      ∧ Vec.assign false 1 (storeOf [[0]]) 0
        (⟨.multV (.scalar ⟨.obj (2 : Int)⟩) (.scalar ⟨.obj 3⟩)⟩ : Vec Int)
        = .failed .shapeMismatch (storeOf [[0]])
      ∧ Vec.assign NDEBUG (1 + 1) (storeOf [[0]]) 0
        (⟨.addV (.scalar ⟨.obj (2 : Int)⟩) (.scalar ⟨.obj 3⟩)⟩ : Vec Int)
        = .returned (storeOf [[0]])
      ∧ Vec.assign NDEBUG (1 + 1) (storeOf [[0]]) 0
        (⟨.multV (.scalar ⟨.obj (2 : Int)⟩) (.scalar ⟨.obj 3⟩)⟩ : Vec Int)
        = .returned (storeOf [[0]]) :=
  C15_scalar_only_assign (storeOf [[0]]) (.scalar ⟨.obj 2⟩) (.scalar ⟨.obj 3⟩) 0 1 rfl rfl
    (by decide)

/-- C16: the operator-built expression equals the hand-built tree of the comment in `main`.
For all buffers `v1`, `v2` of the same length `N` and scalars `a`, `b` of an element type
whose multiplication commutes, the facade produced by `a*v1*b + v2*v2` and the facade over
`Rep4(Rep2(Rep1(a,v1),b), Rep3(v2,v2))` have the same `size()`, namely `N`, and the same
`operator[]` result at every index, in either build; below `N` it is the value
`(a*v1[i])*b + v2[i]*v2[i]`.  (The operators build `b*(a*v1)`, the hand-built `Rep2` has the
scalar `b` on the right.) -/
theorem C16_operator_built_eq_hand_built {T : Type} [Add T] [Mul T]
    (hcomm : ∀ x y : T, x * y = y * x) (ndebug : Bool) (σ : Store T) (a b : T)
    (v1 v2 N : Nat) (h1 : (σ v1).length = N) (h2 : (σ v2).length = N) :
    (main_expression a b v1 v2).size ndebug σ = hand_built_size ndebug σ a b v1 v2
      ∧ hand_built_size ndebug σ a b v1 v2 = .ok N
      ∧ (∀ i, (main_expression a b v1 v2).index ndebug σ i
            = hand_built_index ndebug σ a b v1 v2 i)
      ∧ ∀ i x y, (σ v1)[i]? = some x → (σ v2)[i]? = some y →
          hand_built_index ndebug σ a b v1 v2 i = .ok (a * x * b + y * y) := by
  have hop := main_expression_size ndebug σ a b v1 v2 N h1 h2
  have hhand : hand_built_size ndebug σ a b v1 v2 = .ok N := by
    by_cases hN : N = 0 <;> cases ndebug <;>
      simp [hand_built_size, hand_built_rep_size, Vec.size, Rep.size, Scalar.size, h1, h2,
        nodeSize_ok_ok, hN]
  have hin : ∀ i x y, (σ v1)[i]? = some x → (σ v2)[i]? = some y →
      hand_built_index ndebug σ a b v1 v2 i = .ok (a * x * b + y * y) := by
    intro i x y hx hy
    have e1 := Vec.index_vector ndebug σ v1 i x hx
    have e2 := Vec.index_vector ndebug σ v2 i y hy
    have hi : i < N := by
      by_contra hcon
      rw [List.getElem?_eq_none (by omega)] at hx
      cases hx
    cases ndebug <;>
      simp [hand_built_index, hand_built_rep_index, assert, hhand, e1, e2, Scalar.index,
        Ref.read, bind, Except.bind, pure, Except.pure, hi]
  refine ⟨by rw [hop, hhand], hhand, fun i => ?_, hin⟩
  by_cases hi : i < N
  · have hx : (σ v1)[i]? = some ((σ v1)[i]) := List.getElem?_eq_getElem (by omega)
    have hy : (σ v2)[i]? = some ((σ v2)[i]) := List.getElem?_eq_getElem (by omega)
    rw [hin i _ _ hx hy, Vec.index_of_lt ndebug σ _ N i hop hi,
      main_expression_index σ a b v1 v2 i _ _ hx hy, hcomm b]
  · have n1 : (σ v1)[i]? = none := List.getElem?_eq_none (by omega)
    have hop' : (main_expression a b v1 v2).expr_rep.size ndebug σ = .ok N := hop
    cases ndebug
    · simp [hand_built_index, Vec.index, assert, hhand, hop', Vec.size, hi, bind, Except.bind,
        pure, Except.pure]
    · simp [hand_built_index, hand_built_rep_index, Vec.index, assert, main_expression,
        operator_plus, operator_mul_vec_scalar, operator_mul_scalar_vec, operator_mul,
        Rep.index, Scalar.index, Ref.read, n1, bind, Except.bind, pure, Except.pure]

/-- Witness of C16: the integers, `a = 3`, `b = 5`, `v1 = [1, 1]`, `v2 = [2, 2]`, in the
build of the source. -/
theorem C16_operator_built_eq_hand_built_witness :
    (main_expression (3 : Int) 5 0 1).size NDEBUG (storeOf [[1, 1], [2, 2]])
        = hand_built_size NDEBUG (storeOf [[1, 1], [2, 2]]) 3 5 0 1
      ∧ hand_built_size NDEBUG (storeOf [[1, 1], [2, 2]]) (3 : Int) 5 0 1 = .ok 2
      ∧ (∀ i, (main_expression (3 : Int) 5 0 1).index NDEBUG (storeOf [[1, 1], [2, 2]]) i
            = hand_built_index NDEBUG (storeOf [[1, 1], [2, 2]]) 3 5 0 1 i)
      ∧ ∀ i x y, (storeOf [[(1 : Int), 1], [2, 2]] 0)[i]? = some x →
          (storeOf [[(1 : Int), 1], [2, 2]] 1)[i]? = some y →
          hand_built_index NDEBUG (storeOf [[1, 1], [2, 2]]) 3 5 0 1 i
            = .ok (3 * x * 5 + y * y) :=
  C16_operator_built_eq_hand_built (fun x y => Int.mul_comm x y) NDEBUG
    (storeOf [[1, 1], [2, 2]]) 3 5 0 1 2 rfl rfl

/-- Counterexample to C17 as stated: `v = v[0] * v` on `v = [2, 3]`.  `operator*(const T&,
const Vec&)` binds the scalar to the element `v[0]` and `Scalar` keeps the reference, so the
source's leaves include the destination; source and destination have size 2.  Before the
assignment the source resolves to 4 and 6; after it `v` is `[4, 12]`, in either build: index 1
was computed from the already overwritten `v[0]`. -/
theorem C17_counterexample :
    (operator_mul_scalar_vec (.elem 0 0) (⟨.vector 0⟩ : Vec Int)).size NDEBUG
        (storeOf [[2, 3]]) = .ok 2
      ∧ (operator_mul_scalar_vec (.elem 0 0) (⟨.vector 0⟩ : Vec Int)).index NDEBUG
        (storeOf [[2, 3]]) 0 = .ok 4
      ∧ (operator_mul_scalar_vec (.elem 0 0) (⟨.vector 0⟩ : Vec Int)).index NDEBUG
        (storeOf [[2, 3]]) 1 = .ok 6
      ∧ (Vec.assign NDEBUG 3 (storeOf [[2, 3]]) 0
          (operator_mul_scalar_vec (.elem 0 0) (⟨.vector 0⟩ : Vec Int))).buffer? 0
        = some [4, 12]
      ∧ (Vec.assign false 3 (storeOf [[2, 3]]) 0
          (operator_mul_scalar_vec (.elem 0 0) (⟨.vector 0⟩ : Vec Int))).buffer? 0
        = some [4, 12] :=
  ⟨rfl, rfl, rfl, by decide, by decide⟩

/-- C17, amended: assignment is correct under aliasing of storage.  For every source `src`
whose storage leaves may be the destination buffer `dst` itself (as in `v = a*v + v*v`) but
none of whose scalars refers to an element of `dst`, with `src.size() == dst.size() == N`
and `src` resolving at every index below `N`: `dst = src` returns, and afterwards every
`dst[i]`, `i < N`, is the value `src` resolved to at index `i` in the state before the
assignment began.  It holds in both builds. -/
theorem C17_assign_aliasing {T : Type} [Add T] [Mul T] (ndebug : Bool) (fuel : Nat)
    (σ : Store T) (dst : Nat) (src : Vec T) (N : Nat)
    (hsize : src.size ndebug σ = .ok N)
    (hdst : Vec.size ndebug σ ⟨.vector dst⟩ = .ok N)
    (hs : src.expr_rep.scalarInto dst = false)
    (hres : ∀ i, i < N → ∃ x, src.index ndebug σ i = .ok x) (hfuel : N < fuel) :
    ∃ σ', Vec.assign ndebug fuel σ dst src = .returned σ'
      ∧ ∀ i, i < N → ∃ x, src.index ndebug σ i = .ok x
          ∧ Vec.index ndebug σ' ⟨.vector dst⟩ i = .ok x := by
  have hlen : (σ dst).length = N := by
    simpa [Vec.size, Rep.size] using hdst
  have hres' : ∀ j, j < N → ∃ x, src.expr_rep.index σ j = .ok x := fun j hj => by
    obtain ⟨x, hx⟩ := hres j hj
    exact ⟨x, by rw [← Vec.index_of_lt ndebug σ src N j hsize hj]; exact hx⟩
  obtain ⟨σ', hret, -, -, hval⟩ :=
    Vec.assign_returns ndebug fuel σ dst src N hsize hlen hs hres' hfuel
  refine ⟨σ', hret, fun i hi => ?_⟩
  obtain ⟨x, hx⟩ := hres' i hi
  exact ⟨x, by rw [Vec.index_of_lt ndebug σ src N i hsize hi]; exact hx,
    Vec.index_vector ndebug σ' dst i x (hval i hi x hx)⟩

/-- Witness of C17 (amended): `v = 3*v + v*v` on `v = [1, 2]` over the integers, in the
build of the source. -/
theorem C17_assign_aliasing_witness :
    ∃ σ', Vec.assign NDEBUG 3 (storeOf [[1, 2]]) 0
        (operator_plus (operator_mul_scalar_vec (.obj (3 : Int)) ⟨.vector 0⟩)
          (operator_mul ⟨.vector 0⟩ ⟨.vector 0⟩)) = .returned σ'
      ∧ ∀ i, i < 2 → ∃ x,
          (operator_plus (operator_mul_scalar_vec (.obj (3 : Int)) ⟨.vector 0⟩)
            (operator_mul ⟨.vector 0⟩ ⟨.vector 0⟩)).index NDEBUG (storeOf [[1, 2]]) i = .ok x
          ∧ Vec.index NDEBUG σ' ⟨.vector 0⟩ i = .ok x :=
  C17_assign_aliasing NDEBUG 3 (storeOf [[1, 2]]) 0
    (operator_plus (operator_mul_scalar_vec (.obj (3 : Int)) ⟨.vector 0⟩)
      (operator_mul ⟨.vector 0⟩ ⟨.vector 0⟩)) 2 rfl rfl rfl
    (fun i hi => by
      obtain rfl | rfl : i = 0 ∨ i = 1 := by omega
      · exact ⟨4, rfl⟩
      · exact ⟨10, rfl⟩)
    (by decide)

/-- C18, the code at the failing input: the sum `v0 + v1` of an empty buffer `v0` and a
buffer `v1` of length 3.  The size check passes, with assertions enabled too, and `size()`
is 3 (the empty buffer counts as a broadcast operand); resolving the sum at index 0 accesses
`v0` at position 0, which is not below its length 0: the read is outside the buffer, and
assigning the sum into a buffer of length 3 stops there. -/
theorem C18_empty_buffer_read :
    (operator_plus (⟨.vector 0⟩ : Vec Int) ⟨.vector 1⟩).size false
        (storeOf [[], [1, 2, 3], [0, 0, 0]]) = .ok 3
      ∧ (operator_plus (⟨.vector 0⟩ : Vec Int) ⟨.vector 1⟩).size NDEBUG
        (storeOf [[], [1, 2, 3], [0, 0, 0]]) = .ok 3
      ∧ (0, 0) ∈ (operator_plus (⟨.vector 0⟩ : Vec Int) ⟨.vector 1⟩).expr_rep.reads 0
      ∧ ¬ 0 < (storeOf [[], [(1 : Int), 2, 3], [0, 0, 0]] 0).length
      ∧ (operator_plus (⟨.vector 0⟩ : Vec Int) ⟨.vector 1⟩).index false
        (storeOf [[], [1, 2, 3], [0, 0, 0]]) 0 = .error .undefinedBehaviour
      ∧ (operator_plus (⟨.vector 0⟩ : Vec Int) ⟨.vector 1⟩).index NDEBUG
        (storeOf [[], [1, 2, 3], [0, 0, 0]]) 0 = .error .undefinedBehaviour
      ∧ Vec.assign false 4 (storeOf [[], [1, 2, 3], [0, 0, 0]]) 2
          (operator_plus (⟨.vector 0⟩ : Vec Int) ⟨.vector 1⟩)
        = .failed .undefinedBehaviour (storeOf [[], [1, 2, 3], [0, 0, 0]]) :=
  ⟨rfl, rfl, by decide, by decide, rfl, rfl, rfl⟩

/-- C19: the frame of assignment.  A successful `dst = src` changes only elements of `dst`:
`dst.size()` is as before, every other owning buffer has the length and contents it had,
and so every expression has the `size()` it had.  (Building an expression with `+` and `*`
and querying its `size()` or an index changes no buffer in this development by
construction: the operators build a value without the store, and `size()` and `operator[]`,
`const` members in the source, are functions that read the store and return only their
result.) -/
theorem C19_assign_frame {T : Type} [Add T] [Mul T] (ndebug : Bool) (fuel : Nat)
    (σ σ' : Store T) (dst : Nat) (src : Vec T)
    (h : Vec.assign ndebug fuel σ dst src = .returned σ') :
    Vec.size ndebug σ' ⟨.vector dst⟩ = Vec.size ndebug σ ⟨.vector dst⟩
      ∧ (∀ r, r ≠ dst → σ' r = σ r)
      ∧ (∀ r, (σ' r).length = (σ r).length)
      ∧ ∀ e : Vec T, e.size ndebug σ' = e.size ndebug σ := by
  obtain ⟨hlen, hoff⟩ := Vec.assign_frame ndebug fuel σ σ' dst src h
  have hlens : ∀ r, (σ' r).length = (σ r).length := fun r => by
    by_cases hr : r = dst
    · subst hr; exact hlen
    · rw [hoff r hr]
  exact ⟨by simp [Vec.size, Rep.size, hlen], hoff, hlens,
    fun e => Rep.size_congr ndebug σ σ' hlens e.expr_rep⟩

/-- Witness of C19: assigning the buffer `[7]` into the buffer `[0]`, in the build of the
source. -/
theorem C19_assign_frame_witness :
    Vec.size NDEBUG
        (Function.update (storeOf [[7], [0]]) 1 ((storeOf [[(7 : Int)], [0]] 1).set 0 7))
        ⟨.vector 1⟩ = Vec.size NDEBUG (storeOf [[(7 : Int)], [0]]) ⟨.vector 1⟩
      ∧ (∀ r, r ≠ 1 →
          Function.update (storeOf [[7], [0]]) 1 ((storeOf [[(7 : Int)], [0]] 1).set 0 7) r
            = storeOf [[(7 : Int)], [0]] r)
      ∧ (∀ r,
          (Function.update (storeOf [[7], [0]]) 1
            ((storeOf [[(7 : Int)], [0]] 1).set 0 7) r).length
            = (storeOf [[(7 : Int)], [0]] r).length)
      ∧ ∀ e : Vec Int,
          e.size NDEBUG
            (Function.update (storeOf [[7], [0]]) 1 ((storeOf [[(7 : Int)], [0]] 1).set 0 7))
            = e.size NDEBUG (storeOf [[(7 : Int)], [0]]) :=
  C19_assign_frame NDEBUG 2 (storeOf [[7], [0]])
    (Function.update (storeOf [[7], [0]]) 1 ((storeOf [[(7 : Int)], [0]] 1).set 0 7))
    1 ⟨.vector 0⟩ rfl

end ExprTemplate
